import Mathlib

/-!
Verification of the mollieimport repository: a shallow embedding of its core
(idempotency-key generation, the resilient write client with retry/backoff and
dry-run mode, the CSV row validator/normalizer, subscription start-date
computation, the paginated read client, and the per-record import
orchestrator), together with theorems settling the specification claims.

Conventions of the embedding:
* Python machine floats are modelled as exact rationals plus the special
  values inf, minus-inf and nan (`PyFloat`); decimal parsing and `%.2f` formatting are
  value-level (round half to even).
* JSON/dict values are modelled by the inductive `PV`; Python dicts are
  association lists with unique keys (first binding wins on lookup).
* A dict field holding Python `None` is `PV.null`; an optional argument that
  may be absent is `Option`.
* Exceptions are modelled with `Except String` / `Option`; a caught-and-
  skipped row is `none`.
* Network interaction is modelled by explicit response sequences (for the
  retry loop) or response lists (for pagination); sleeping is modelled by
  recording the waited durations.
-/

/-! ## UTF-8 encoding of strings as byte lists -/

/-- UTF-8 encoding of a single code point, as a list of byte values. -/
def utf8Char (c : Char) : List Nat :=
  let n := c.toNat
  if n < 0x80 then [n]
  else if n < 0x800 then [0xC0 + n / 64, 0x80 + n % 64]
  else if n < 0x10000 then [0xE0 + n / 4096, 0x80 + (n / 64) % 64, 0x80 + n % 64]
  else [0xF0 + n / 262144, 0x80 + (n / 4096) % 64, 0x80 + (n / 64) % 64, 0x80 + n % 64]

/-- UTF-8 encoding of a string (Python `str.encode("utf-8")`). -/
def utf8Bytes (s : String) : List Nat :=
  (s.data.map utf8Char).flatten

/-! ## SHA-256 (FIPS 180-4), over byte lists, all arithmetic in `Nat` mod 2^32 -/

def M32 : Nat := 0xffffffff

/-- Rotate a 32-bit word right by `n` bits. -/
def rotr32 (n x : Nat) : Nat := ((x >>> n) ||| (x <<< (32 - n))) &&& M32

def shaBigSigma0 (x : Nat) : Nat := rotr32 2 x ^^^ rotr32 13 x ^^^ rotr32 22 x
def shaBigSigma1 (x : Nat) : Nat := rotr32 6 x ^^^ rotr32 11 x ^^^ rotr32 25 x
def shaSmallSigma0 (x : Nat) : Nat := rotr32 7 x ^^^ rotr32 18 x ^^^ (x >>> 3)
def shaSmallSigma1 (x : Nat) : Nat := rotr32 17 x ^^^ rotr32 19 x ^^^ (x >>> 10)

/-- SHA-256 round constants. -/
def shaK : List Nat :=
  [1116352408, 1899447441, 3049323471, 3921009573, 961987163, 1508970993,
   2453635748, 2870763221, 3624381080, 310598401, 607225278, 1426881987,
   1925078388, 2162078206, 2614888103, 3248222580, 3835390401, 4022224774,
   264347078, 604807628, 770255983, 1249150122, 1555081692, 1996064986,
   2554220882, 2821834349, 2952996808, 3210313671, 3336571891, 3584528711,
   113926993, 338241895, 666307205, 773529912, 1294757372, 1396182291,
   1695183700, 1986661051, 2177026350, 2456956037, 2730485921, 2820302411,
   3259730800, 3345764771, 3516065817, 3600352804, 4094571909, 275423344,
   430227734, 506948616, 659060556, 883997877, 958139571, 1322822218,
   1537002063, 1747873779, 1955562222, 2024104815, 2227730452, 2361852424,
   2428436474, 2756734187, 3204031479, 3329325298]

/-- SHA-256 working state: eight 32-bit words. -/
structure H8 where
  a : Nat
  b : Nat
  c : Nat
  d : Nat
  e : Nat
  f : Nat
  g : Nat
  h : Nat
deriving DecidableEq, Repr

/-- SHA-256 initial hash value. -/
def shaH0 : H8 :=
  ⟨1779033703, 3144134277, 1013904242, 2773480762,
   1359893119, 2600822924, 528734635, 1541459225⟩

/-- One round of the SHA-256 compression function. -/
def shaRound (st : H8) (k w : Nat) : H8 :=
  let ch := (st.e &&& st.f) ^^^ ((st.e ^^^ M32) &&& st.g)
  let t1 := (st.h + shaBigSigma1 st.e + ch + k + w) % 2 ^ 32
  let maj := (st.a &&& st.b) ^^^ (st.a &&& st.c) ^^^ (st.b &&& st.c)
  let t2 := (shaBigSigma0 st.a + maj) % 2 ^ 32
  ⟨(t1 + t2) % 2 ^ 32, st.a, st.b, st.c, (st.d + t1) % 2 ^ 32, st.e, st.f, st.g⟩

/-- Big-endian 64-bit encoding of a number as 8 bytes. -/
def be64 (n : Nat) : List Nat :=
  [n >>> 56 % 256, n >>> 48 % 256, n >>> 40 % 256, n >>> 32 % 256,
   n >>> 24 % 256, n >>> 16 % 256, n >>> 8 % 256, n % 256]

/-- SHA-256 padding: append 0x80, zero bytes, and the 64-bit bit length. -/
def shaPad (msg : List Nat) : List Nat :=
  msg ++ [0x80] ++ List.replicate ((64 - (msg.length + 9) % 64) % 64) 0 ++ be64 (8 * msg.length)

/-- Group bytes into big-endian 32-bit words (input length a multiple of 4). -/
def beWords : List Nat → List Nat
  | a :: b :: c :: d :: rest => (((a * 256 + b) * 256 + c) * 256 + d) :: beWords rest
  | _ => []

/-- Extend a 16-word block by `fuel` further schedule words. -/
def shaExtend (w : List Nat) : Nat → List Nat
  | 0 => w
  | fuel + 1 =>
    let nw := (shaSmallSigma1 (w.getD (w.length - 2) 0) + w.getD (w.length - 7) 0 +
               shaSmallSigma0 (w.getD (w.length - 15) 0) + w.getD (w.length - 16) 0) % 2 ^ 32
    shaExtend (w ++ [nw]) fuel

/-- Split a word list into blocks of 16. -/
def chunk16 : List Nat → List (List Nat)
  | [] => []
  | w :: rest => ((w :: rest).take 16) :: chunk16 ((w :: rest).drop 16)
termination_by l => l.length
decreasing_by simp; omega

/-- Process one 16-word block. -/
def shaBlock (h : H8) (ws : List Nat) : H8 :=
  let sched := shaExtend ws 48
  let st := (shaK.zip sched).foldl (fun s kw => shaRound s kw.1 kw.2) h
  ⟨(h.a + st.a) % 2 ^ 32, (h.b + st.b) % 2 ^ 32, (h.c + st.c) % 2 ^ 32, (h.d + st.d) % 2 ^ 32,
   (h.e + st.e) % 2 ^ 32, (h.f + st.f) % 2 ^ 32, (h.g + st.g) % 2 ^ 32, (h.h + st.h) % 2 ^ 32⟩

/-- Big-endian 4-byte encoding of a 32-bit word. -/
def be4 (n : Nat) : List Nat := [n >>> 24 % 256, n >>> 16 % 256, n >>> 8 % 256, n % 256]

/-- SHA-256 digest of a byte list, as 32 bytes. -/
def sha256 (msg : List Nat) : List Nat :=
  let h := (chunk16 (beWords (shaPad msg))).foldl shaBlock shaH0
  be4 h.a ++ be4 h.b ++ be4 h.c ++ be4 h.d ++ be4 h.e ++ be4 h.f ++ be4 h.g ++ be4 h.h

/-- Lower-case hexadecimal digit. -/
def hexDigit (n : Nat) : Char :=
  if n < 10 then Char.ofNat (48 + n) else Char.ofNat (87 + n)

/-- Two-digit lower-case hex of a byte. -/
def byteHex (b : Nat) : String := String.mk [hexDigit (b / 16), hexDigit (b % 16)]

/-- Lower-case hex digest string of SHA-256 (Python `hashlib.sha256(x).hexdigest()`). -/
def sha256hex (msg : List Nat) : String := String.join ((sha256 msg).map byteHex)

/-! ## Python-style JSON/dict values -/

/-- A Python value appearing in JSON payloads and responses: string, integer,
boolean, `None`, list, or dict (an insertion-ordered association list). -/
inductive PV where
  | s (v : String)
  | num (v : Int)
  | b (v : Bool)
  | null
  | arr (elems : List PV)
  | o (fields : List (String × PV))

/-- A Python dict with string keys, as an insertion-ordered association list. -/
abbrev Dict := List (String × PV)

/-- Python dict lookup (`d.get(k)` returning `none` when the key is absent). -/
def dlookup : Dict → String → Option PV
  | [], _ => none
  | (k, v) :: rest, key => if k = key then some v else dlookup rest key

/-- Python dict item assignment `d[k] = v`: overwrite an existing binding in
place, else append a new binding at the end. -/
def dictSet (d : Dict) (k : String) (v : PV) : Dict :=
  if (dlookup d k).isSome then d.map (fun p => if p.1 = k then (k, v) else p)
  else d ++ [(k, v)]

/-- Python truthiness of a value. -/
def pvTruthy : PV → Bool
  | .s v => !v.isEmpty
  | .num n => n != 0
  | .b v => v
  | .null => false
  | .arr l => !l.isEmpty
  | .o f => !f.isEmpty

/-- Truthiness of an optional value (`none` models Python `None` / a missing
lookup and is falsy). -/
def pvTruthyOpt : Option PV → Bool
  | none => false
  | some v => pvTruthy v

/-- Python `x or y` on optional values. -/
def pyOrPV (x y : Option PV) : Option PV :=
  match x with
  | some v => if pvTruthy v then some v else y
  | none => y

/-- A single-quote character, for Python `repr` output. -/
def pyq : String := "\x27"

mutual
/-- Python `repr` of a value. The model assumes strings contain no quote,
backslash or non-printable characters, so `repr` of a string is the string in
single quotes. -/
def reprPy : PV → String
  | .s v => pyq ++ v ++ pyq
  | .num n => toString n
  | .b true => "True"
  | .b false => "False"
  | .null => "None"
  | .arr l => "[" ++ reprPyList l ++ "]"
  | .o f => "\x7b" ++ reprPyFields f ++ "\x7d"

/-- Comma-joined `repr`s of list elements. -/
def reprPyList : List PV → String
  | [] => ""
  | [v] => reprPy v
  | v :: rest => reprPy v ++ ", " ++ reprPyList rest

/-- Comma-joined `repr`s of dict entries. -/
def reprPyFields : List (String × PV) → String
  | [] => ""
  | [(k, v)] => pyq ++ k ++ pyq ++ ": " ++ reprPy v
  | (k, v) :: rest => pyq ++ k ++ pyq ++ ": " ++ reprPy v ++ ", " ++ reprPyFields rest
end

/-- Python `str(x)` as used in f-string interpolation: a string interpolates
as itself, any other value as its `repr`. -/
def pvToStr : PV → String
  | .s v => v
  | v => reprPy v

/-- Python `repr` of the pair `(path, payload)` (a 2-tuple of a string and a
dict). -/
def reprTuple (path : String) (payload : Dict) : String :=
  "(" ++ pyq ++ path ++ pyq ++ ", " ++ reprPy (.o payload) ++ ")"

/-! ## Python floats as exact values -/

/-- A Python float, modelled as an exact rational or one of the special
values. (Binary rounding of doubles is abstracted away: values are exact,
which agrees with the source on all decimal inputs of the import pipeline up
to double precision.) -/
inductive PyFloat where
  | fin (q : Rat)
  | inf
  | ninf
  | nan
deriving DecidableEq, Repr

/-- Python whitespace, as stripped by `str.strip()`. -/
def isSpaceChar (c : Char) : Bool :=
  c = ' ' || c = '\t' || c = '\n' || c = '\r' || c = '\x0b' || c = '\x0c'

/-- Python `str.strip()`: drop whitespace from both ends. -/
def pyStrip (s : String) : String :=
  String.mk (((s.data.dropWhile isSpaceChar).reverse.dropWhile isSpaceChar).reverse)

/-- Split a character list on a separator character (the groups between
separators, Python `str.split(sep)` semantics). -/
def splitOnCharL (sep : Char) : List Char → List (List Char)
  | [] => [[]]
  | c :: rest =>
    match splitOnCharL sep rest with
    | [] => [[]]
    | g :: gs => if c = sep then [] :: g :: gs else (c :: g) :: gs

/-- Python `s.split(sep)` for a one-character separator (the splitting
performed by `str.replace`-free parsing helpers below). -/
def splitOnCharS (sep : Char) (s : String) : List String :=
  (splitOnCharL sep s.data).map String.mk

/-- Python `s.replace(" ", "")`: remove every space. -/
def removeSpaces (s : String) : String :=
  String.mk (s.data.filter (fun c => !(c = ' ')))

/-- Python `s.replace(",", ".")`. -/
def commaToDot (s : String) : String :=
  String.mk (s.data.map (fun c => if c = ',' then '.' else c))

/-- Lower-case an ASCII letter. -/
def lowerChar (c : Char) : Char :=
  if 'A' ≤ c && c ≤ 'Z' then Char.ofNat (c.toNat + 32) else c

/-- Python `str.lower()` (ASCII part). -/
def pyLower (s : String) : String := String.mk (s.data.map lowerChar)

/-- Digit characters to the number they denote. -/
def digitsToNat (l : List Char) : Nat := l.foldl (fun a c => a * 10 + (c.toNat - 48)) 0

/-- All characters are ASCII digits and there is at least one. -/
def allDigits1 (l : List Char) : Bool := !l.isEmpty && l.all (·.isDigit)

/-- Parse the mantissa part of a float literal: digits with an optional
decimal point, at least one digit overall. Returns the value as an integer
numerator over a power-of-ten denominator. -/
def parseMantissa (s : String) : Option (Nat × Nat) :=
  match splitOnCharS '.' s with
  | [ip] => if allDigits1 ip.data then some (digitsToNat ip.data, 1) else none
  | [ip, fp] =>
    if ip.data.all (·.isDigit) && fp.data.all (·.isDigit) && (!ip.isEmpty || !fp.isEmpty) then
      some (digitsToNat ip.data * 10 ^ fp.length + digitsToNat fp.data, 10 ^ fp.length)
    else none
  | _ => none

/-- Parse an optionally signed exponent. -/
def parseExponent (s : String) : Option Int :=
  match s.data with
  | '+' :: rest => if allDigits1 rest then some (digitsToNat rest) else none
  | '-' :: rest => if allDigits1 rest then some (-(digitsToNat rest : Int)) else none
  | l => if allDigits1 l then some (digitsToNat l) else none

/-- Scale a numerator/denominator pair by a power of ten. -/
def scale10 (p : Nat × Nat) (e : Int) : Nat × Nat :=
  if 0 ≤ e then (p.1 * 10 ^ e.toNat, p.2) else (p.1, p.2 * 10 ^ (-e).toNat)

/-- The signed rational value of a numerator/denominator pair. -/
def signedVal (neg : Bool) (p : Nat × Nat) : Rat :=
  if neg then mkRat (-(p.1 : Int)) p.2 else mkRat p.1 p.2

/-- Parse an unsigned float body: `inf`, `infinity`, `nan`, or a decimal
literal with optional exponent. -/
def parseFloatBody (u : String) (neg : Bool) : Option PyFloat :=
  if u = "inf" || u = "infinity" then some (if neg then .ninf else .inf)
  else if u = "nan" then some .nan
  else
    match splitOnCharS 'e' u with
    | [m] => (parseMantissa m).map fun p => .fin (signedVal neg p)
    | [m, e] =>
      match parseMantissa m, parseExponent e with
      | some p, some ex => some (.fin (signedVal neg (scale10 p ex)))
      | _, _ => none
    | _ => none

/-- Python `float(s)`: strip surrounding whitespace, accept an optional sign,
then a decimal or special body (case-insensitive). Returns `none` when Python
would raise `ValueError`. (Underscore digit separators are not modelled.) -/
def parsePyFloat (s : String) : Option PyFloat :=
  let t := pyLower (pyStrip s)
  match t.data with
  | '-' :: rest => parseFloatBody (String.mk rest) true
  | '+' :: rest => parseFloatBody (String.mk rest) false
  | _ => parseFloatBody t false

/-- Round `q * 100` to the nearest integer, ties to even (the rounding of
Python float formatting, taken at exact values), computed on the reduced
numerator and denominator. -/
def roundHalfEven100 (q : Rat) : Int :=
  let n := q.num * 100
  let d := (q.den : Int)
  let f := Int.fdiv n d
  let r2 := 2 * (n - f * d)
  if r2 < d then f else if d < r2 then f + 1 else if f % 2 = 0 then f else f + 1

/-- Two-digit zero-padded decimal. -/
def pad2 (n : Nat) : String := if n < 10 then "0" ++ toString n else toString n

/-- Python `f"{x:.2f}"`: fixed-point formatting with two decimals. -/
def format2 : PyFloat → String
  | .inf => "inf"
  | .ninf => "-inf"
  | .nan => "nan"
  | .fin q =>
    let n := roundHalfEven100 q
    let sgn := if n < 0 || (n = 0 && q.num < 0) then "-" else ""
    let m := n.natAbs
    sgn ++ toString (m / 100) ++ "." ++ pad2 (m % 100)

/-! ## Calendar dates (Python `datetime.date`) -/

/-- A calendar date. Validity (`ValidDate`) is tracked separately so that the
construction checks of `datetime.date` can be modelled explicitly. -/
structure Date where
  year : Nat
  month : Nat
  day : Nat
deriving DecidableEq, Repr

/-- Gregorian leap year. -/
def isLeap (y : Nat) : Bool := y % 4 = 0 && (y % 100 != 0 || y % 400 = 0)

/-- Number of days in a month of a given year. -/
def daysInMonth (y m : Nat) : Nat :=
  if m = 2 then (if isLeap y then 29 else 28)
  else if m = 4 || m = 6 || m = 9 || m = 11 then 30
  else 31

/-- The argument checks of `datetime.date(y, m, d)`. -/
def ValidDate (d : Date) : Prop :=
  1 ≤ d.year ∧ d.year ≤ 9999 ∧ 1 ≤ d.month ∧ d.month ≤ 12 ∧
  1 ≤ d.day ∧ d.day ≤ daysInMonth d.year d.month

instance (d : Date) : Decidable (ValidDate d) := by unfold ValidDate; infer_instance

/-- `datetime.date(y, m, d)`: build a date, `none` when Python raises
`ValueError`. -/
def mkDate (y m d : Nat) : Option Date :=
  if ValidDate ⟨y, m, d⟩ then some ⟨y, m, d⟩ else none

/-- Python date comparison `a < b` (lexicographic on year, month, day). -/
def dateLt (a b : Date) : Bool :=
  decide (a.year < b.year ∨ (a.year = b.year ∧
    (a.month < b.month ∨ (a.month = b.month ∧ a.day < b.day))))

/-- `a ≤ b` on dates. -/
def dateLe (a b : Date) : Bool := dateLt a b || a == b

/-- Four-digit zero-padded decimal. -/
def pad4 (n : Nat) : String :=
  if n < 10 then "000" ++ toString n
  else if n < 100 then "00" ++ toString n
  else if n < 1000 then "0" ++ toString n
  else toString n

/-- Python `date.isoformat()`: `YYYY-MM-DD`. -/
def Date.isoformat (d : Date) : String :=
  pad4 d.year ++ "-" ++ pad2 d.month ++ "-" ++ pad2 d.day

/-! ## `csv_reader._parse_date`: `strptime` with formats `%Y-%m-%d`,
`%d-%m-%Y`, `%d-%m-%y`.

Python `strptime` matches `%Y` as exactly four digits, `%y` as exactly two,
and `%m`/`%d` as one or two digits within range; the dashes are literal, so a
format matches exactly when splitting on `-` yields three parts each matching
its token, and the resulting numbers form a valid calendar date. -/

/-- `%Y`: exactly four digits. -/
def tokY (s : String) : Option Nat :=
  if s.length = 4 && s.data.all (·.isDigit) then some (digitsToNat s.data) else none

/-- `%y`: exactly two digits, mapped by `strptime` to 2000–2068 / 1969–1999. -/
def tokY2 (s : String) : Option Nat :=
  if s.length = 2 && s.data.all (·.isDigit) then
    let v := digitsToNat s.data
    some (if v ≤ 68 then v + 2000 else v + 1900)
  else none

/-- `%m` or `%d`: one or two digits, value between 1 and `hi`. -/
def tokMD (hi : Nat) (s : String) : Option Nat :=
  if (s.length = 1 || s.length = 2) && s.data.all (·.isDigit) then
    let v := digitsToNat s.data
    if 1 ≤ v ∧ v ≤ hi then some v else none
  else none

/-- `strptime(s, "%Y-%m-%d").date()`. -/
def strptimeYmd (s : String) : Option Date :=
  match splitOnCharS '-' s with
  | [y, m, d] => do mkDate (← tokY y) (← tokMD 12 m) (← tokMD 31 d)
  | _ => none

/-- `strptime(s, "%d-%m-%Y").date()`. -/
def strptimeDmY (s : String) : Option Date :=
  match splitOnCharS '-' s with
  | [d, m, y] => do mkDate (← tokY y) (← tokMD 12 m) (← tokMD 31 d)
  | _ => none

/-- `strptime(s, "%d-%m-%y").date()`. -/
def strptimeDmy2 (s : String) : Option Date :=
  match splitOnCharS '-' s with
  | [d, m, y] => do mkDate (← tokY2 y) (← tokMD 12 m) (← tokMD 31 d)
  | _ => none

/-- `csv_reader._parse_date`: try the formats in order, first success wins;
`none` models the final `raise ValueError`. -/
def _parse_date (date_str : String) : Option Date :=
  match strptimeYmd date_str with
  | some d => some d
  | none =>
    match strptimeDmY date_str with
    | some d => some d
    | none => strptimeDmy2 date_str

/-! ## IBAN checksum.

Modelled from the spec: `csv_reader.validate_iban` delegates to the external
`python-stdnum` library, whose internals are not part of this repository; the
spec describes the check as "ISO 7064 mod-97 over the re-arranged,
letter-to-digit-expanded string". -/

/-- Value of an IBAN character: digits are themselves, letters are 10–35. -/
def ibanCharVal (c : Char) : Nat :=
  if c.isDigit then c.toNat - 48 else c.toNat - 55

/-- Fold the letter-to-digit-expanded string into a number: a digit
contributes one decimal digit, a letter two. -/
def ibanNum (l : List Char) : Nat :=
  l.foldl (fun a c => if c.isDigit then a * 10 + ibanCharVal c else a * 100 + ibanCharVal c) 0

/-- Modelled from the spec: IBAN validation — structural shape (two upper-case
country letters, two check digits, alphanumeric body) and the ISO 7064 mod-97
checksum over the re-arranged, letter-to-digit-expanded string. -/
def validate_iban (iban : String) : Bool :=
  let cs := iban.data
  5 ≤ cs.length && cs.length ≤ 34 &&
  cs.all (fun c => c.isDigit || c.isUpper) &&
  (cs.take 2).all (·.isUpper) &&
  ((cs.drop 2).take 2).all (·.isDigit) &&
  ibanNum (cs.drop 4 ++ cs.take 4) % 97 = 1

/-! ## `csv_reader.read_customers`: the per-row validation pipeline.

The CSV file handling (delimiter sniffing, header check) is outside the
claims; the embedding covers the loop body that turns one raw row into a
yielded record or a skip. A raw field is `none` when the column value is
Python `None` or the key is absent, `some s` when it is the string `s`. -/

/-- A raw CSV row restricted to the columns the pipeline reads. -/
structure RawRow where
  Email : Option String
  VoorNaam : Option String
  Naam : Option String
  IBAN : Option String
  MachtigingsID : Option String
  DatumOndertekening : Option String
  Bedrag : Option String
  LidNr : Option String
  currency : Option String
  interval : Option String
  description : Option String
deriving Repr

/-- Whitespace-trim every string field of a row (the loop's first step). -/
def trimRow (r : RawRow) : RawRow :=
  ⟨r.Email.map pyStrip, r.VoorNaam.map pyStrip, r.Naam.map pyStrip, r.IBAN.map pyStrip,
   r.MachtigingsID.map pyStrip, r.DatumOndertekening.map pyStrip, r.Bedrag.map pyStrip,
   r.LidNr.map pyStrip, r.currency.map pyStrip, r.interval.map pyStrip,
   r.description.map pyStrip⟩

/-- Python truthiness of an optional string. -/
def truthyS : Option String → Bool
  | none => false
  | some s => !s.isEmpty

/-- A validated record as yielded by `read_customers` (the row dict after the
in-place date and amount conversions). -/
structure CleanRow where
  Email : Option String
  VoorNaam : Option String
  Naam : Option String
  IBAN : Option String
  MachtigingsID : Option String
  DatumOndertekening : Option Date
  Bedrag : PyFloat
  LidNr : Option String
  currency : Option String
  interval : Option String
  description : Option String
deriving DecidableEq, Repr

/-- The body of the `read_customers` loop for one row: `some record` when the
row is yielded, `none` when it is skipped. `validateIban` is the injected
IBAN predicate (`csv_reader.validate_iban`). -/
def read_customers_row (validateIban : String → Bool) (validate_iban_flag : Bool)
    (raw : RawRow) : Option CleanRow :=
  let r := trimRow raw
  if !truthyS r.Email || !truthyS r.IBAN then none
  else if validate_iban_flag && !validateIban (r.IBAN.getD "") then none
  else
    let dateStep : Option (Option Date) :=
      if truthyS r.DatumOndertekening then
        match _parse_date (r.DatumOndertekening.getD "") with
        | some d => some (some d)
        | none => none
      else some none
    match dateStep with
    | none => none
    | some dOpt =>
      match r.Bedrag with
      | none => none
      | some braw =>
        match parsePyFloat (commaToDot (removeSpaces braw)) with
        | none => none
        | some amt =>
          some ⟨r.Email, r.VoorNaam, r.Naam, r.IBAN, r.MachtigingsID, dOpt, amt,
                r.LidNr, r.currency, r.interval, r.description⟩

/-! ## `mollie_api.MollieAPI` -/

/-- The API base URL (`MollieAPI.BASE`). -/
def BASE : String := "https://api.mollie.com/v2"

/-- `MollieAPI._deterministic_key`: SHA-256 hex digest of the UTF-8 encoding
of the parts joined with `|`, a `None` part contributing the empty string. -/
def _deterministic_key (parts : List (Option String)) : String :=
  let joined := String.intercalate "|" (parts.map (fun p => p.getD ""))
  sha256hex (utf8Bytes joined)

/-- Python `path.rstrip("/")`. -/
def rstripSlash (s : String) : String :=
  String.mk (s.data.reverse.dropWhile (· = '/')).reverse

/-- `startsWithL n l`: `n` is a prefix of `l`. -/
def startsWithL : List Char → List Char → Bool
  | [], _ => true
  | _ :: _, [] => false
  | a :: as, b :: bs => a = b && startsWithL as bs

/-- Python `n in l` on strings, as character lists: `n` occurs inside `l`. -/
def containsL (needle : List Char) : List Char → Bool
  | [] => needle.isEmpty
  | c :: rest => startsWithL needle (c :: rest) || containsL needle rest

/-- Python `l.endswith(n)`, as character lists. -/
def suffixL (needle hay : List Char) : Bool := startsWithL needle.reverse hay.reverse

/-- The dry-run resource-type tag inferred from the request path
(the `if`/`elif` chain of `_post` in test mode). -/
def pathTag (path : String) : Option String :=
  if containsL "/customers".data path.data &&
     suffixL "/customers".data (rstripSlash path).data then some "cst_"
  else if containsL "/mandates".data path.data then some "mdt_"
  else if containsL "/subscriptions".data path.data then some "sub_"
  else none

/-- The `key_source` of dry-run `_post`: the idempotency key when truthy, else
the SHA-256 hex digest of `repr((path, payload))`. -/
def dryKeySource (path : String) (payload : Dict) (key : Option String) : String :=
  match key with
  | some k => if k.isEmpty then sha256hex (utf8Bytes (reprTuple path payload)) else k
  | none => sha256hex (utf8Bytes (reprTuple path payload))

/-- The dict returned by `_post` in dry-run (test) mode. -/
def postTestFake (path : String) (payload : Dict) (key : Option String) : Dict :=
  let url := BASE ++ path
  let fake : Dict := [("_test", .b true), ("url", .s url), ("payload", .o payload),
                      ("idempotency", match key with | some k => .s k | none => .null)]
  let short := (dryKeySource path payload key).take 12
  match pathTag path with
  | some tag => fake ++ [("id", .s (tag ++ short))]
  | none => fake

/-- One interaction of the live retry loop with the network: either
`session.post` raises a `RequestException`, or it returns a response with a
status code, an optional numeric `Retry-After` header, a body that parses as
JSON (`some dict`) or does not (`none`), and the raw body text. -/
inductive Event where
  | exc (msg : String)
  | resp (status : Nat) (retryAfter : Option Rat) (jsonBody : Option Dict) (text : String)

/-- `resp.json()` with the fallback dict used when the body fails to parse. -/
def parsedBody (status : Nat) (jsonBody : Option Dict) (text : String) : Dict :=
  jsonBody.getD [("status_code", .num status), ("text", .s text)]

/-- Attach the idempotency key to a 2xx-success body for tracing
(`resp_json["idempotency"] = idempotency_key`, only when the key is truthy). -/
def mergeKey (rj : Dict) (key : Option String) : Dict :=
  match key with
  | some k => if k.isEmpty then rj else dictSet rj "idempotency" (.s k)
  | none => rj

/-- Terminal outcome of `_post`: a normal return, the permanent-error
`RuntimeError("Mollie API error: ...")` carrying the parsed error body, or the
retry-exhaustion `RuntimeError("Failed to POST ... after 5 attempts")`. -/
inductive PostResult where
  | success (body : Dict)
  | apiError (err : Dict)
  | exhausted

/-- Both `RuntimeError` outcomes are the spec's `RemoteError`. -/
def isRemoteError : PostResult → Bool
  | .success _ => false
  | .apiError _ => true
  | .exhausted => true

/-- Whether the outcome is a normal return. -/
def isSuccess : PostResult → Bool
  | .success _ => true
  | _ => false

/-- One attempt of the live retry loop: `Sum.inl wait` means the attempt
sleeps `wait` and retries (doubling the backoff); `Sum.inr r` means the loop
ends with outcome `r`. -/
def attemptStep (key : Option String) (backoff : Rat) (e : Event) : Sum Rat PostResult :=
  match e with
  | .exc _ => .inl backoff
  | .resp status retryAfter jsonBody text =>
    if status = 200 ∨ status = 201 then
      .inr (.success (mergeKey (parsedBody status jsonBody text) key))
    else if 500 ≤ status ∨ status = 429 then
      .inl (match retryAfter with | some r => r | none => backoff)
    else .inr (.apiError (parsedBody status jsonBody text))

/-- The observable outcome of live `_post`: the result, the number of
attempts made, and the sequence of slept backoff durations. -/
structure PostOutcome where
  result : PostResult
  attempts : Nat
  waits : List Rat

/-- The live retry loop of `_post`, with `fuel` attempts remaining, `i`
attempts already made, current `backoff`, and accumulated waits. The `i`-th
network interaction is `ev i`. -/
def postGoLive (key : Option String) (ev : Nat → Event) :
    Nat → Nat → Rat → List Rat → PostOutcome
  | 0, i, _, ws => ⟨.exhausted, i, ws⟩
  | fuel + 1, i, backoff, ws =>
    match attemptStep key backoff (ev i) with
    | .inr r => ⟨r, i + 1, ws⟩
    | .inl w => postGoLive key ev fuel (i + 1) (2 * backoff) (ws ++ [w])

/-- Live-mode `_post`: at most 5 attempts, initial backoff 1. -/
def postLive (key : Option String) (ev : Nat → Event) : PostOutcome :=
  postGoLive key ev 5 0 1 []

/-- `MollieAPI._post`: in test mode, no network interaction happens and the
fake dict is returned at once; in live mode the retry loop runs against the
network events. -/
def _post (test : Bool) (ev : Nat → Event) (path : String) (payload : Dict)
    (key : Option String) : PostOutcome :=
  if test then ⟨.success (postTestFake path payload key), 0, []⟩
  else postLive key ev

/-- A Python string-or-None dict value. -/
def optPV : Option String → PV
  | none => .null
  | some s => .s s

/-- The abstract POST capability handed to the three write operations: the
behavior of `self._post` as seen by a caller (normal return or raised
exception rendered as a string). Quantifying theorems over it captures that
the operations are oblivious to retry/dry-run details. -/
abbrev Post := String → Dict → Option String → Except String Dict

/-- The payload dict built by `create_customer`. -/
def customerPayload (email given_name family_name customer_reference : Option String) : Dict :=
  let payload : Dict := [("email", optPV email),
    ("name", .s (pyStrip (given_name.getD "" ++ " " ++ family_name.getD "")))]
  if truthyS customer_reference then
    payload ++ [("metadata", .o [("customer_reference", optPV customer_reference)])]
  else payload

/-- `MollieAPI.create_customer`. Returns the posted result together with the
list of paths actually POSTed (the embedding's call trace). -/
def create_customer (post : Post) (email given_name family_name customer_reference :
    Option String) : Except String Dict × List String :=
  let key := _deterministic_key [some "customer", some (email.getD "")]
  (post "/customers" (customerPayload email given_name family_name customer_reference)
    (some key), ["/customers"])

/-- The payload dict built by `import_mandate` (for a present signature
date). -/
def mandatePayload (iban mandate_reference : Option String) (d : Date)
    (given_name family_name : Option String) : Dict :=
  [("method", .s "directdebit"),
   ("consumerName", .s (given_name.getD "" ++ " " ++ family_name.getD "")),
   ("consumerAccount", optPV iban),
   ("mandateReference", optPV mandate_reference),
   ("signatureDate", .s d.isoformat)]

/-- `MollieAPI.import_mandate`. When the signature date is `None`, building
the payload raises (`None.isoformat()`) before any POST happens. -/
def import_mandate (post : Post) (customer_id : String) (iban mandate_reference :
    Option String) (mandate_signature_date : Option Date)
    (given_name family_name : Option String) : Except String Dict × List String :=
  match mandate_signature_date with
  | none => (.error "AttributeError: NoneType object has no attribute isoformat", [])
  | some d =>
    let key := _deterministic_key [some "mandate", some customer_id,
      some (mandate_reference.getD "")]
    let path := "/customers/" ++ customer_id ++ "/mandates"
    (post path (mandatePayload iban mandate_reference d given_name family_name)
      (some key), [path])

/-- A subscription start value: a `datetime.date` (has `isoformat`) or a
plain string. -/
inductive StartV where
  | d (v : Date)
  | s (v : String)
deriving DecidableEq, Repr

/-- Python truthiness of a start value (dates are always truthy). -/
def truthyStart : StartV → Bool
  | .d _ => true
  | .s v => !v.isEmpty

/-- Python `x or y` on optional start values. -/
def pyOrStart (x y : Option StartV) : Option StartV :=
  match x with
  | some v => if truthyStart v then some v else y
  | none => y

/-- The string form of a start value as used for the payload and the key:
`isoformat()` for a date, `str(...)` for anything else. -/
def startStr : StartV → String
  | .d v => v.isoformat
  | .s v => v

/-- The plan dict passed to `create_subscription`. -/
structure Plan where
  amount : Option PyFloat
  currency : Option String
  interval : Option String
  description : Option String
  start_date : Option StartV
  startDate : Option StartV
deriving Repr

/-- The payload dict built by `create_subscription` (for a present amount
`a`). -/
def subscriptionPayload (plan : Plan) (a : PyFloat) : Dict :=
  let payload : Dict := [("amount", .o [("value", .s (format2 a)),
    ("currency", .s (plan.currency.getD "EUR"))]),
    ("interval", .s (plan.interval.getD "1 year")),
    ("description", .s (plan.description.getD "Yearly membership"))]
  match pyOrStart plan.start_date plan.startDate with
  | some sv => payload ++ [("startDate", .s (startStr sv))]
  | none => payload

/-- `MollieAPI.create_subscription`. When the amount is `None`, formatting it
with `:.2f` raises a `TypeError` before any POST happens. -/
def create_subscription (post : Post) (customer_id : String) (plan : Plan) :
    Except String Dict × List String :=
  match plan.amount with
  | none => (.error "TypeError: unsupported format string passed to NoneType.__format__", [])
  | some a =>
    let start_str := match pyOrStart plan.start_date plan.startDate with
      | some sv => startStr sv
      | none => ""
    let amount_str := format2 a
    let key := _deterministic_key [some "subscription", some customer_id, some amount_str,
      some (plan.interval.getD ""), some start_str]
    let path := "/customers/" ++ customer_id ++ "/subscriptions"
    (post path (subscriptionPayload plan a) (some key), [path])

/-! ## `main.next_same_day_in_year` -/

/-- The `try`/`except` block of `next_same_day_in_year`: build the date with
the original month/day in year `y`, falling back to Mar 1 for Feb 29 when the
construction raises; `none` models the re-raised `ValueError`. -/
def sameDayCandidate (orig_date : Date) (y : Nat) : Option Date :=
  match mkDate y orig_date.month orig_date.day with
  | some c => some c
  | none =>
    if orig_date.month = 2 && orig_date.day = 29 then mkDate y 3 1 else none

/-- `main.next_same_day_in_year orig from_date`: the candidate with the same
month/day in `from_date`'s year, advanced to the next year when it falls
before `from_date`. -/
def next_same_day_in_year (orig_date from_date : Date) : Option Date :=
  match sameDayCandidate orig_date from_date.year with
  | none => none
  | some candidate =>
    if dateLt candidate from_date then sameDayCandidate orig_date (from_date.year + 1)
    else some candidate

/-! ## `main.process_customer` and the main loop -/

/-- The `result` dict built by `process_customer`.
`subscription_startDate = none` models the key being absent (early return). -/
structure PCResult where
  customer : Option Dict
  mandate : Option Dict
  subscription : Option Dict
  errors : List String
  subscription_startDate : Option String

/-- Python `str(x or "")` on an optional string. -/
def strOrEmpty (x : Option String) : String :=
  if truthyS x then x.getD "" else ""

/-- The customer-id extraction of `process_customer` (lines 104-109):
`cust_resp.get("id") or cust_resp.get("resource")`, re-reading `id` when that
is falsy; the caller proceeds only when the result is truthy. -/
def extract_customer_id (cust_resp : Dict) : Option PV :=
  let cid0 := pyOrPV (dlookup cust_resp "id") (dlookup cust_resp "resource")
  if pvTruthyOpt cid0 then cid0 else dlookup cust_resp "id"

/-- `main.process_customer`: create customer, import mandate, create
subscription for one validated row, collecting errors per step and stopping
early as the source does. Also returns the list of POSTed paths. `today` is
the injected current date (`datetime.date.today()`). -/
def process_customer (post : Post) (today : Date) (row : CleanRow) :
    PCResult × List String :=
  match create_customer post row.Email row.VoorNaam row.Naam (some (strOrEmpty row.LidNr)) with
  | (.error e, t1) => (⟨none, none, none, [e], none⟩, t1)
  | (.ok cust_resp, t1) =>
    let customer_id := extract_customer_id cust_resp
    if !pvTruthyOpt customer_id then (⟨some cust_resp, none, none, [], none⟩, t1)
    else
      let cid := pvToStr ((customer_id).getD .null)
      match import_mandate post cid row.IBAN (some (strOrEmpty row.MachtigingsID))
          row.DatumOndertekening row.VoorNaam row.Naam with
      | (.error e, t2) => (⟨some cust_resp, none, none, [e], none⟩, t1 ++ t2)
      | (.ok mandate_resp, t2) =>
        let start_date : Option Date :=
          match row.DatumOndertekening with
          | some orig => next_same_day_in_year orig today
          | none => none
        let plan : Plan := ⟨some row.Bedrag, some (row.currency.getD "EUR"),
          some (row.interval.getD "1 year"), some (row.description.getD "Yearly subscription"),
          start_date.map .d, none⟩
        let startIso : String := match start_date with
          | some d => d.isoformat
          | none => ""
        match create_subscription post cid plan with
        | (.error e, t3) =>
          (⟨some cust_resp, some mandate_resp, none, [e], some startIso⟩, t1 ++ t2 ++ t3)
        | (.ok sub_resp, t3) =>
          (⟨some cust_resp, some mandate_resp, some sub_resp, [], some startIso⟩, t1 ++ t2 ++ t3)

/-- One line of the output CSV as assembled by `main.main` for one record. -/
structure OutRow where
  email : Option String
  customer_id : String
  customer_idempotency : String
  mandate_id : String
  mandate_idempotency : String
  subscription_id : String
  subscription_idempotency : String
  subscription_startDate : String
  status : String
  error : String
deriving DecidableEq, Repr

/-- `d.get(k) or ""`, rendered to a string for the output CSV. -/
def getOrEmptyStr (d : Dict) (k : String) : String :=
  match dlookup d k with
  | some v => if pvTruthy v then pvToStr v else ""
  | none => ""

/-- Truthiness check `res.get(f) and isinstance(res.get(f), dict)` used by the
main loop before reading ids out of a step result. -/
def stepDictTruthy : Option Dict → Bool
  | some d => !d.isEmpty
  | none => false

/-- The body of the `main.main` loop for one record: process it and build its
output row. -/
def outRowOf (post : Post) (today : Date) (row : CleanRow) : OutRow :=
  let res := (process_customer post today row).1
  let base : OutRow := ⟨row.Email, "", "", "", "", "", "", "", "", ""⟩
  let o1 := if stepDictTruthy res.customer then
      { base with customer_id := getOrEmptyStr (res.customer.getD []) "id",
                  customer_idempotency := getOrEmptyStr (res.customer.getD []) "idempotency" }
    else base
  let o2 := if stepDictTruthy res.mandate then
      { o1 with mandate_id := getOrEmptyStr (res.mandate.getD []) "id",
                mandate_idempotency := getOrEmptyStr (res.mandate.getD []) "idempotency" }
    else o1
  let o3 := if stepDictTruthy res.subscription then
      { o2 with subscription_id := getOrEmptyStr (res.subscription.getD []) "id",
                subscription_idempotency := getOrEmptyStr (res.subscription.getD []) "idempotency" }
    else o2
  let o4 := { o3 with subscription_startDate :=
      match res.subscription_startDate with
      | some s => if !s.isEmpty then s else ""
      | none => "" }
  if !res.errors.isEmpty then
    { o4 with status := "failed", error := String.intercalate "; " res.errors }
  else
    { o4 with status := "ok" }

/-- The `main.main` record loop over the validated rows: each record is
processed in order and contributes exactly one output row; the final counts
are the numbers of ok/failed records. -/
def main_loop (post : Post) (today : Date) : List CleanRow → List OutRow × Nat × Nat
  | [] => ([], 0, 0)
  | row :: rest =>
    let out := outRowOf post today row
    let (outs, s, f) := main_loop post today rest
    (out :: outs, (if out.status = "ok" then s + 1 else s),
     (if out.status = "ok" then f else f + 1))

/-! ## `list_subscriptions.MollieSubscriptionFetcher._get_paginated` -/

/-- One page interaction of the pagination walk: the GET raises (connection
error or `raise_for_status`), or returns a parsed JSON object. -/
inductive PageResp where
  | err
  | ok (data : Dict)

/-- The first list-valued entry of an `_embedded` dict, in insertion order. -/
def firstListValue : List (String × PV) → List PV
  | [] => []
  | (_, .arr xs) :: _ => xs
  | _ :: rest => firstListValue rest

/-- The items contributed by one page: the first list-valued entry under the
`_embedded` wrapper when that wrapper is a dict, else nothing. -/
def extractItems (data : Dict) : List PV :=
  match dlookup data "_embedded" with
  | some (.o fields) => firstListValue fields
  | _ => []

/-- The next-page cursor of a page: `_links.next.href` when `_links.next` is a
dict carrying `href`. -/
def nextCursor (data : Dict) : Option PV :=
  match dlookup data "_links" with
  | some (.o links) =>
    match dlookup links "next" with
    | some (.o nx) => dlookup nx "href"
    | _ => none
  | _ => none

/-- Whether the walk continues after a page (`while next_url` on the assigned
cursor: present and truthy). -/
def hasNext (data : Dict) : Bool := pvTruthyOpt (nextCursor data)

/-- The pagination walk over the successive page responses. An exhausted
response list while a cursor is still pending also ends as the caught
`RequestException` path (unreachable under the finite-chain hypotheses of the
theorems). -/
def getPagAux : List PageResp → List PV → Except Unit (List PV)
  | [], _ => .error ()
  | .err :: _, _ => .error ()
  | .ok data :: rest, acc =>
    let acc := acc ++ extractItems data
    if hasNext data then getPagAux rest acc else .ok acc

/-- `_get_paginated`, as a function of the sequence of page responses the
server produces along the walk: the collected items of all pages, or a
`RemoteError` with nothing collected. -/
def _get_paginated (pages : List PageResp) : Except Unit (List PV) :=
  getPagAux pages []

/-! # Claims -/

/-- **C1**: The idempotency-key generator is a pure function: the key is the
SHA-256 hex digest of the UTF-8 encoding of the kind and parts joined by the
fixed separator `|`, missing (`None`) parts contributing the empty string;
identical inputs therefore always give byte-identical keys. The three write
operations pass, beyond the kind, exactly: the email for customer; the
customer id and mandate reference for mandate; the customer id, the amount
formatted to 2 decimals, the interval and the start-date ISO string (or
empty) for subscription — whatever POST capability they run against. -/
theorem idempotency_keys_sha256 :
    (∀ parts : List (Option String),
      _deterministic_key parts =
        sha256hex (utf8Bytes (String.intercalate "|" (parts.map (fun p => p.getD ""))))) ∧
    (∀ (post : Post) (email given_name family_name customer_reference : Option String),
      ∃ payload : Dict,
        (create_customer post email given_name family_name customer_reference).1 =
          post "/customers" payload
            (some (sha256hex (utf8Bytes ("customer" ++ "|" ++ email.getD ""))))) ∧
    (∀ (post : Post) (customer_id : String) (iban mandate_reference : Option String)
        (d : Date) (given_name family_name : Option String),
      ∃ payload : Dict,
        (import_mandate post customer_id iban mandate_reference (some d)
            given_name family_name).1 =
          post ("/customers/" ++ customer_id ++ "/mandates") payload
            (some (sha256hex (utf8Bytes
              ("mandate" ++ "|" ++ customer_id ++ "|" ++ mandate_reference.getD ""))))) ∧
    (∀ (post : Post) (customer_id : String) (plan : Plan) (a : PyFloat),
      plan.amount = some a →
      ∃ payload : Dict,
        (create_subscription post customer_id plan).1 =
          post ("/customers/" ++ customer_id ++ "/subscriptions") payload
            (some (sha256hex (utf8Bytes
              ("subscription" ++ "|" ++ customer_id ++ "|" ++ format2 a ++ "|" ++
               plan.interval.getD "" ++ "|" ++
               (match pyOrStart plan.start_date plan.startDate with
                | some sv => startStr sv
                | none => "")))))) := by
  refine ⟨fun parts => rfl, ?_, ?_, ?_⟩
  · intro post email g f cr
    refine ⟨customerPayload email g f cr, ?_⟩
    simp [create_customer, _deterministic_key, String.intercalate, List.intercalate,
      String.intercalate.go]
  · intro post cid iban ref d g f
    refine ⟨mandatePayload iban ref d g f, ?_⟩
    simp [import_mandate, _deterministic_key, String.intercalate, List.intercalate,
      String.intercalate.go]
  · intro post cid plan a ha
    refine ⟨subscriptionPayload plan a, ?_⟩
    simp [create_subscription, ha, _deterministic_key, String.intercalate, List.intercalate,
      String.intercalate.go]

/-- Fixture: a trivial POST capability. -/
def c1post : Post := fun _ _ _ => .ok []

/-- Fixture: a concrete subscription plan. -/
def c1plan : Plan :=
  ⟨some (.fin (mkRat 25 2)), some "EUR", some "1 year", none, some (.d ⟨2026, 6, 15⟩), none⟩

/-- Witness for **C1** at a concrete plan: the subscription key hypothesis
(`amount` present) is discharged at `12.50`. -/
theorem idempotency_keys_sha256_witness :
    ∃ payload : Dict,
      (create_subscription c1post "cst_1" c1plan).1 =
        c1post ("/customers/" ++ "cst_1" ++ "/subscriptions") payload
          (some (sha256hex (utf8Bytes
            ("subscription" ++ "|" ++ "cst_1" ++ "|" ++ format2 (.fin (25 / 2)) ++ "|" ++
             c1plan.interval.getD "" ++ "|" ++
             (match pyOrStart c1plan.start_date c1plan.startDate with
              | some sv => startStr sv
              | none => ""))))) := by
  exact idempotency_keys_sha256.2.2.2 c1post "cst_1" c1plan (.fin (mkRat 25 2)) rfl

/-! Helper lemmas about substring checks, for the dry-run path tagging. -/

lemma startsWithL_append_self (n t : List Char) : startsWithL n (n ++ t) = true := by
  induction n with
  | nil => simp [startsWithL]
  | cons c cs ih => simp [startsWithL, ih]

lemma containsL_nil_left (l : List Char) : containsL [] l = true := by
  cases l <;> simp [containsL, startsWithL]

lemma containsL_append_self (n t : List Char) : containsL n (n ++ t) = true := by
  cases n with
  | nil => simpa using containsL_nil_left t
  | cons c cs =>
    simp only [containsL]
    have := startsWithL_append_self (c :: cs) t
    simp only [List.cons_append] at this
    simp [this]

lemma containsL_of_right (n y : List Char) (h : containsL n y = true) (x : List Char) :
    containsL n (x ++ y) = true := by
  induction x with
  | nil => simpa using h
  | cons c cs ih => simp [containsL, ih]

lemma containsL_suffix (n x : List Char) : containsL n (x ++ n) = true := by
  have h := containsL_append_self n []
  simp only [List.append_nil] at h
  exact containsL_of_right n n h x

lemma rstrip_keep (l : List Char) (c : Char) (hc : ¬ c = '/') :
    (((l ++ [c]).reverse).dropWhile (fun ch => ch = '/')).reverse = l ++ [c] := by
  simp [List.dropWhile_cons, hc]

lemma rstripSlash_mandates (cid : String) :
    (rstripSlash ("/customers/" ++ cid ++ "/mandates")).data
      = ("/customers/" ++ cid ++ "/mandates").data := by
  have hd : ("/customers/" ++ cid ++ "/mandates").data
      = ("/customers/".data ++ cid.data ++ "/mandate".data) ++ ['s'] := by
    simp [List.append_assoc]
  simp only [rstripSlash, hd]
  exact rstrip_keep _ 's' (by decide)

lemma rstripSlash_subscriptions (cid : String) :
    (rstripSlash ("/customers/" ++ cid ++ "/subscriptions")).data
      = ("/customers/" ++ cid ++ "/subscriptions").data := by
  have hd : ("/customers/" ++ cid ++ "/subscriptions").data
      = ("/customers/".data ++ cid.data ++ "/subscription".data) ++ ['s'] := by
    simp [List.append_assoc]
  simp only [rstripSlash, hd]
  exact rstrip_keep _ 's' (by decide)

lemma suffix_customers_mandates (cid : String) :
    suffixL "/customers".data ("/customers/" ++ cid ++ "/mandates").data = false := by
  have hd : ("/customers/" ++ cid ++ "/mandates").data
      = "/customers/".data ++ cid.data ++ "/mandates".data := by simp
  rw [hd]
  simp only [suffixL, List.reverse_append]
  have h1 : ("/mandates".data).reverse = ['s','e','t','a','d','n','a','m','/'] := rfl
  have h2 : ("/customers".data).reverse = ['s','r','e','m','o','t','s','u','c','/'] := rfl
  rw [h1, h2]
  simp [startsWithL]

lemma suffix_customers_subscriptions (cid : String) :
    suffixL "/customers".data ("/customers/" ++ cid ++ "/subscriptions").data = false := by
  have hd : ("/customers/" ++ cid ++ "/subscriptions").data
      = "/customers/".data ++ cid.data ++ "/subscriptions".data := by simp
  rw [hd]
  simp only [suffixL, List.reverse_append]
  have h1 : ("/subscriptions".data).reverse
      = ['s','n','o','i','t','p','i','r','c','s','b','u','s','/'] := rfl
  have h2 : ("/customers".data).reverse = ['s','r','e','m','o','t','s','u','c','/'] := rfl
  rw [h1, h2]
  simp [startsWithL]

lemma pathTag_mandates (cid : String) :
    pathTag ("/customers/" ++ cid ++ "/mandates") = some "mdt_" := by
  have hsuf := suffix_customers_mandates cid
  have hrs := rstripSlash_mandates cid
  have hcon : containsL "/mandates".data ("/customers/" ++ cid ++ "/mandates").data = true := by
    have hd : ("/customers/" ++ cid ++ "/mandates").data
        = ("/customers/".data ++ cid.data) ++ "/mandates".data := by simp
    rw [hd]
    exact containsL_suffix _ _
  unfold pathTag
  rw [hrs, hsuf, hcon]
  simp

lemma pathTag_subscriptions (cid : String)
    (h : containsL "/mandates".data ("/customers/" ++ cid ++ "/subscriptions").data = false) :
    pathTag ("/customers/" ++ cid ++ "/subscriptions") = some "sub_" := by
  have hsuf := suffix_customers_subscriptions cid
  have hrs := rstripSlash_subscriptions cid
  have hcon : containsL "/subscriptions".data
      ("/customers/" ++ cid ++ "/subscriptions").data = true := by
    have hd : ("/customers/" ++ cid ++ "/subscriptions").data
        = ("/customers/".data ++ cid.data) ++ "/subscriptions".data := by simp
    rw [hd]
    exact containsL_suffix _ _
  unfold pathTag
  rw [hrs, hsuf, h, hcon]
  simp

/-- **C9**: In dry-run mode `_post` performs no network interaction (its
result is independent of whatever the network would answer) and returns
immediately — zero attempts, zero sleeps — a success embedding the request
payload (and the request URL); its fake identifier is the resource-type tag
inferred from the path followed by the 12-character truncation of the key
source, which is the idempotency key when one is given (non-empty) and the
SHA-256 hex digest of `repr((path, payload))` otherwise; the tag is `cst_`
for the customers collection path and `mdt_` / `sub_` for the mandate /
subscription paths of any customer id. -/
theorem dry_run_post_spec :
    (∀ (ev ev2 : Nat → Event) (path : String) (payload : Dict) (key : Option String),
      _post true ev path payload key = _post true ev2 path payload key ∧
      _post true ev path payload key =
        ⟨.success (postTestFake path payload key), 0, []⟩) ∧
    (∀ (path : String) (payload : Dict) (key : Option String),
      dlookup (postTestFake path payload key) "payload" = some (.o payload) ∧
      dlookup (postTestFake path payload key) "url" = some (.s (BASE ++ path)) ∧
      dlookup (postTestFake path payload key) "id" =
        (pathTag path).map (fun tag => PV.s (tag ++ (dryKeySource path payload key).take 12))) ∧
    (∀ (path : String) (payload : Dict) (k : String), ¬ k = "" →
      dryKeySource path payload (some k) = k ∧
      dryKeySource path payload none = sha256hex (utf8Bytes (reprTuple path payload))) ∧
    (pathTag "/customers" = some "cst_" ∧
     (∀ cid : String, pathTag ("/customers/" ++ cid ++ "/mandates") = some "mdt_") ∧
     (∀ cid : String,
        containsL "/mandates".data ("/customers/" ++ cid ++ "/subscriptions").data = false →
        pathTag ("/customers/" ++ cid ++ "/subscriptions") = some "sub_")) := by
  refine ⟨fun ev ev2 path payload key => ⟨rfl, rfl⟩, ?_, ?_, rfl, pathTag_mandates,
    pathTag_subscriptions⟩
  · intro path payload key
    refine ⟨?_, ?_, ?_⟩ <;>
      · unfold postTestFake
        cases h : pathTag path <;> simp [dlookup]
  · intro path payload k hk
    constructor
    · simp [dryKeySource, String.isEmpty_iff, hk]
    · rfl

/-- Witness for **C9**: the hypotheses are discharged at a concrete non-empty
key and a concrete customer id. -/
theorem dry_run_post_spec_witness :
    (dryKeySource "/customers" [] (some "abcdef0123456789") = "abcdef0123456789" ∧
     dryKeySource "/customers" [] none =
       sha256hex (utf8Bytes (reprTuple "/customers" []))) ∧
    pathTag ("/customers/" ++ "cst_7" ++ "/subscriptions") = some "sub_" := by
  exact ⟨dry_run_post_spec.2.2.1 "/customers" [] "abcdef0123456789" (by decide),
         dry_run_post_spec.2.2.2.2.2 "cst_7" (by decide)⟩

/-! Helper definitions and lemmas for the live retry loop. -/

/-- Whether an event makes the loop sleep and retry: a network-level
exception, or a response with status 5xx or 429 (and not a 200/201
success). -/
def retryEvt : Event → Bool
  | .exc _ => true
  | .resp status _ _ _ => !(status = 200 || status = 201) && (500 ≤ status || status = 429)

/-- Whether an event ends the loop with the permanent-error raise. -/
def isPermEvt : Event → Bool
  | .exc _ => false
  | .resp status _ _ _ => !(status = 200 || status = 201) && !(500 ≤ status || status = 429)

/-- The parsed body of a response event (junk for an exception, which carries
no body). -/
def evBody : Event → Dict
  | .exc _ => []
  | .resp status _ jsonBody text => parsedBody status jsonBody text

/-- The duration slept after a retried attempt with current backoff `b`: the
server-supplied Retry-After hint when the event is a response carrying one,
else `b`. -/
def waitOf (e : Event) (b : Rat) : Rat :=
  match e with
  | .exc _ => b
  | .resp _ retryAfter _ _ => match retryAfter with | some r => r | none => b

lemma attemptStep_of_retry (key : Option String) (b : Rat) (e : Event)
    (h : retryEvt e = true) : attemptStep key b e = .inl (waitOf e b) := by
  cases e with
  | exc m => rfl
  | resp status ra jb t =>
    have hs : ¬ (status = 200 ∨ status = 201) := by
      intro hc
      rcases hc with hc | hc <;> simp [retryEvt, hc] at h
    have hr : 500 ≤ status ∨ status = 429 := by
      by_contra hc
      push_neg at hc
      have h5 : decide (500 ≤ status) = false := by
        simp only [decide_eq_false_iff_not]
        omega
      have h4 : decide (status = 429) = false := by
        simp [hc.2]
      simp [retryEvt, h5, h4] at h
    simp [attemptStep, hs, hr, waitOf]

lemma attemptStep_of_perm (key : Option String) (b : Rat) (e : Event)
    (h : isPermEvt e = true) : attemptStep key b e = .inr (.apiError (evBody e)) := by
  cases e with
  | exc m => simp [isPermEvt] at h
  | resp status ra jb t =>
    have hs : ¬ (status = 200 ∨ status = 201) := by
      intro hc
      rcases hc with hc | hc <;> simp [isPermEvt, hc] at h
    have hr : ¬ (500 ≤ status ∨ status = 429) := by
      intro hc
      rcases hc with hc | hc <;> simp [isPermEvt, hc] at h
    simp [attemptStep, hs, hr, evBody]

lemma attemptStep_of_success (key : Option String) (b : Rat)
    (status : Nat) (ra : Option Rat) (jb : Option Dict) (t : String)
    (h : status = 200 ∨ status = 201) :
    attemptStep key b (.resp status ra jb t) =
      .inr (.success (mergeKey (parsedBody status jb t) key)) := by
  simp [attemptStep, h]

lemma postGoLive_attempts_le (key : Option String) (ev : Nat → Event) :
    ∀ (fuel i : Nat) (b : Rat) (w : List Rat),
      (postGoLive key ev fuel i b w).attempts ≤ i + fuel := by
  intro fuel
  induction fuel with
  | zero => intro i b w; simp [postGoLive]
  | succ f ih =>
    intro i b w
    rcases hstep : attemptStep key b (ev i) with wt | r
    · have h := ih (i + 1) (2 * b) (w ++ [wt])
      simp only [postGoLive, hstep]
      omega
    · simp only [postGoLive, hstep]
      omega

lemma attemptStep_inl_inv (key : Option String) (b : Rat) (e : Event) (w : Rat)
    (h : attemptStep key b e = .inl w) : retryEvt e = true ∧ w = waitOf e b := by
  cases e with
  | exc m =>
    refine ⟨rfl, ?_⟩
    simpa [attemptStep, waitOf] using h.symm
  | resp status ra jb t =>
    by_cases hs : status = 200 ∨ status = 201
    · simp [attemptStep, hs] at h
    · by_cases hr : 500 ≤ status ∨ status = 429
      · refine ⟨?_, ?_⟩
        · have h200 : decide (status = 200) = false := by
            simp only [decide_eq_false_iff_not]; exact fun hc => hs (Or.inl hc)
          have h201 : decide (status = 201) = false := by
            simp only [decide_eq_false_iff_not]; exact fun hc => hs (Or.inr hc)
          rcases hr with hr | hr
          · simp [retryEvt, h200, h201, hr]
          · simp [retryEvt, h200, h201, hr]
        · have := h
          simp only [attemptStep, if_neg hs, if_pos hr, Sum.inl.injEq] at this
          simp [waitOf, ← this]
      · simp [attemptStep, hs, hr] at h

lemma postGoLive_acc (key : Option String) (ev : Nat → Event) :
    ∀ (fuel i : Nat) (b : Rat) (w : List Rat),
      postGoLive key ev fuel i b w =
        ⟨(postGoLive key ev fuel i b []).result, (postGoLive key ev fuel i b []).attempts,
         w ++ (postGoLive key ev fuel i b []).waits⟩ := by
  intro fuel
  induction fuel with
  | zero => intro i b w; simp [postGoLive]
  | succ f ih =>
    intro i b w
    rcases hstep : attemptStep key b (ev i) with wt | r
    · simp only [postGoLive, hstep, List.nil_append]
      rw [ih (i + 1) (2 * b) (w ++ [wt]), ih (i + 1) (2 * b) [wt]]
      simp
    · simp [postGoLive, hstep]

lemma postGoLive_waits (key : Option String) (ev : Nat → Event) :
    ∀ (fuel i j : Nat), j < (postGoLive key ev fuel i ((2 : Rat) ^ i) []).waits.length →
      (postGoLive key ev fuel i ((2 : Rat) ^ i) []).waits[j]? =
        some (waitOf (ev (i + j)) ((2 : Rat) ^ (i + j))) ∧
      retryEvt (ev (i + j)) = true := by
  intro fuel
  induction fuel with
  | zero => intro i j hj; simp [postGoLive] at hj
  | succ f ih =>
    intro i j hj
    rcases hstep : attemptStep key ((2 : Rat) ^ i) (ev i) with wt | r
    · obtain ⟨hretry, hwt⟩ := attemptStep_inl_inv _ _ _ _ hstep
      have hb : 2 * (2 : Rat) ^ i = (2 : Rat) ^ (i + 1) := by ring
      have hrw : postGoLive key ev (f + 1) i ((2 : Rat) ^ i) [] =
          ⟨(postGoLive key ev f (i + 1) ((2 : Rat) ^ (i + 1)) []).result,
           (postGoLive key ev f (i + 1) ((2 : Rat) ^ (i + 1)) []).attempts,
           [wt] ++ (postGoLive key ev f (i + 1) ((2 : Rat) ^ (i + 1)) []).waits⟩ := by
        simp only [postGoLive, hstep, hb]
        exact postGoLive_acc key ev f (i + 1) _ [wt]
      rw [hrw] at hj ⊢
      cases j with
      | zero =>
        refine ⟨?_, by simpa using hretry⟩
        simp [hwt]
      | succ jj =>
        simp only [List.cons_append, List.nil_append] at hj ⊢
        have hj2 : jj < (postGoLive key ev f (i + 1) ((2 : Rat) ^ (i + 1)) []).waits.length := by
          simpa using Nat.lt_of_succ_lt_succ (by simpa using hj)
        have := ih (i + 1) jj hj2
        have hidx : i + 1 + jj = i + (jj + 1) := by omega
        rw [hidx] at this
        simpa using this
    · simp only [postGoLive, hstep] at hj
      simp at hj

lemma postGoLive_all_retry (key : Option String) (ev : Nat → Event) :
    ∀ (fuel i : Nat) (b : Rat) (w : List Rat),
      (∀ k, k < fuel → retryEvt (ev (i + k)) = true) →
      (postGoLive key ev fuel i b w).result = .exhausted ∧
      (postGoLive key ev fuel i b w).attempts = i + fuel := by
  intro fuel
  induction fuel with
  | zero => intro i b w _; exact ⟨rfl, by simp [postGoLive]⟩
  | succ f ih =>
    intro i b w h
    have h0 : retryEvt (ev i) = true := by simpa using h 0 (Nat.succ_pos f)
    rw [show postGoLive key ev (f + 1) i b w
        = postGoLive key ev f (i + 1) (2 * b) (w ++ [waitOf (ev i) b]) by
      simp [postGoLive, attemptStep_of_retry key b (ev i) h0]]
    have h2 : ∀ k, k < f → retryEvt (ev (i + 1 + k)) = true := by
      intro k hk
      have := h (k + 1) (by omega)
      simpa [show i + (k + 1) = i + 1 + k by omega] using this
    obtain ⟨hr, ha⟩ := ih (i + 1) (2 * b) (w ++ [waitOf (ev i) b]) h2
    exact ⟨hr, by omega⟩

lemma postGoLive_perm (key : Option String) (ev : Nat → Event) :
    ∀ (j fuel i : Nat) (b : Rat) (w : List Rat), j < fuel →
      (∀ k, k < j → retryEvt (ev (i + k)) = true) →
      isPermEvt (ev (i + j)) = true →
      (postGoLive key ev fuel i b w).result = .apiError (evBody (ev (i + j))) ∧
      (postGoLive key ev fuel i b w).attempts = i + j + 1 := by
  intro j
  induction j with
  | zero =>
    intro fuel i b w hfuel _ hperm
    obtain ⟨f, rfl⟩ : ∃ f, fuel = f + 1 := ⟨fuel - 1, by omega⟩
    simp only [Nat.add_zero] at hperm
    simp [postGoLive, attemptStep_of_perm key b (ev i) hperm]
  | succ jj ih =>
    intro fuel i b w hfuel h hperm
    obtain ⟨f, rfl⟩ : ∃ f, fuel = f + 1 := ⟨fuel - 1, by omega⟩
    have h0 : retryEvt (ev i) = true := by simpa using h 0 (Nat.succ_pos jj)
    rw [show postGoLive key ev (f + 1) i b w
        = postGoLive key ev f (i + 1) (2 * b) (w ++ [waitOf (ev i) b]) by
      simp [postGoLive, attemptStep_of_retry key b (ev i) h0]]
    have h2 : ∀ k, k < jj → retryEvt (ev (i + 1 + k)) = true := by
      intro k hk
      have := h (k + 1) (by omega)
      simpa [show i + (k + 1) = i + 1 + k by omega] using this
    have hperm2 : isPermEvt (ev (i + 1 + jj)) = true := by
      simpa [show i + (jj + 1) = i + 1 + jj by omega] using hperm
    obtain ⟨hr, ha⟩ := ih f (i + 1) (2 * b) (w ++ [waitOf (ev i) b]) (by omega) h2 hperm2
    refine ⟨?_, by omega⟩
    rw [hr]
    simp [show i + 1 + jj = i + (jj + 1) by omega]

lemma postGoLive_success (key : Option String) (ev : Nat → Event) :
    ∀ (j fuel i : Nat) (b : Rat) (w : List Rat)
      (status : Nat) (ra : Option Rat) (jb : Option Dict) (t : String), j < fuel →
      (∀ k, k < j → retryEvt (ev (i + k)) = true) →
      ev (i + j) = .resp status ra jb t → (status = 200 ∨ status = 201) →
      (postGoLive key ev fuel i b w).result =
        .success (mergeKey (parsedBody status jb t) key) ∧
      (postGoLive key ev fuel i b w).attempts = i + j + 1 := by
  intro j
  induction j with
  | zero =>
    intro fuel i b w status ra jb t hfuel _ hev hok
    obtain ⟨f, rfl⟩ : ∃ f, fuel = f + 1 := ⟨fuel - 1, by omega⟩
    simp only [Nat.add_zero] at hev
    simp [postGoLive, hev, attemptStep_of_success key b status ra jb t hok]
  | succ jj ih =>
    intro fuel i b w status ra jb t hfuel h hev hok
    obtain ⟨f, rfl⟩ : ∃ f, fuel = f + 1 := ⟨fuel - 1, by omega⟩
    have h0 : retryEvt (ev i) = true := by simpa using h 0 (Nat.succ_pos jj)
    rw [show postGoLive key ev (f + 1) i b w
        = postGoLive key ev f (i + 1) (2 * b) (w ++ [waitOf (ev i) b]) by
      simp [postGoLive, attemptStep_of_retry key b (ev i) h0]]
    have h2 : ∀ k, k < jj → retryEvt (ev (i + 1 + k)) = true := by
      intro k hk
      have := h (k + 1) (by omega)
      simpa [show i + (k + 1) = i + 1 + k by omega] using this
    have hev2 : ev (i + 1 + jj) = .resp status ra jb t := by
      simpa [show i + (jj + 1) = i + 1 + jj by omega] using hev
    obtain ⟨hr, ha⟩ :=
      ih f (i + 1) (2 * b) (w ++ [waitOf (ev i) b]) status ra jb t (by omega) h2 hev2 hok
    exact ⟨hr, by omega⟩

/-- Fixture for the retry-policy witness: 500, then 500 with a Retry-After
hint of 7, then a permanent 404. -/
def c2events : Nat → Event
  | 0 => .resp 500 none none "e1"
  | 1 => .resp 500 (some 7) none "e2"
  | _ => .resp 404 none (some [("status", .num 404)]) "nf"

/-- **C2**: In live mode, for every sequence of network responses, `_post`
makes at most 5 attempts; every retried attempt was a network failure or a
5xx/429 response and slept the server-supplied Retry-After hint when present,
else the exponential backoff `2 ^ attempt` starting at 1 — the backoff term
doubling each attempt regardless of hints; any response whose status is
neither 2xx nor 5xx nor 429 raises the `RemoteError` carrying the parsed
error body immediately, on its own attempt; and five retried attempts
exhaust the loop into the final `RemoteError`. -/
theorem post_live_retry_policy (key : Option String) (ev : Nat → Event) :
    (postLive key ev).attempts ≤ 5 ∧
    (∀ j, j < (postLive key ev).waits.length →
      (postLive key ev).waits[j]? = some (waitOf (ev j) ((2 : Rat) ^ j)) ∧
      retryEvt (ev j) = true) ∧
    (∀ (j status : Nat) (ra : Option Rat) (jb : Option Dict) (t : String),
      j < 5 → (∀ k, k < j → retryEvt (ev k) = true) →
      ev j = .resp status ra jb t →
      ¬ (200 ≤ status ∧ status < 300) → status < 500 → ¬ status = 429 →
      (postLive key ev).result = .apiError (parsedBody status jb t) ∧
      (postLive key ev).attempts = j + 1 ∧
      isRemoteError (postLive key ev).result = true) ∧
    ((∀ k, k < 5 → retryEvt (ev k) = true) →
      (postLive key ev).result = .exhausted ∧ (postLive key ev).attempts = 5 ∧
      isRemoteError (postLive key ev).result = true) := by
  have hone : (1 : Rat) = (2 : Rat) ^ (0 : Nat) := by norm_num
  refine ⟨?_, ?_, ?_, ?_⟩
  · simpa using postGoLive_attempts_le key ev 5 0 1 []
  · intro j hj
    unfold postLive at hj ⊢
    rw [hone] at hj ⊢
    have := postGoLive_waits key ev 5 0 j hj
    simpa using this
  · intro j status ra jb t hj hpre hev h2xx h5xx h429
    have hperm : isPermEvt (ev j) = true := by
      rw [hev]
      have h200 : decide (status = 200) = false := by
        simp only [decide_eq_false_iff_not]; omega
      have h201 : decide (status = 201) = false := by
        simp only [decide_eq_false_iff_not]; omega
      have h500 : decide (500 ≤ status) = false := by
        simp only [decide_eq_false_iff_not]; omega
      have h429d : decide (status = 429) = false := by
        simp only [decide_eq_false_iff_not]; exact h429
      simp [isPermEvt, h200, h201, h500, h429d]
    have hpre0 : ∀ k, k < j → retryEvt (ev (0 + k)) = true := by
      intro k hk; simpa using hpre k hk
    obtain ⟨hr, ha⟩ := postGoLive_perm key ev j 5 0 1 [] hj hpre0 (by simpa using hperm)
    have hr2 : (postLive key ev).result = .apiError (parsedBody status jb t) := by
      unfold postLive
      rw [hr]
      simp [evBody, hev]
    refine ⟨hr2, by unfold postLive; omega, ?_⟩
    rw [hr2]
    rfl
  · intro hall
    have hall0 : ∀ k, k < 5 → retryEvt (ev (0 + k)) = true := by
      intro k hk; simpa using hall k hk
    obtain ⟨hr, ha⟩ := postGoLive_all_retry key ev 5 0 1 [] hall0
    have hr2 : (postLive key ev).result = .exhausted := hr
    refine ⟨hr2, by unfold postLive; omega, ?_⟩
    rw [hr2]
    rfl

/-- Witness for **C2**: a concrete run — two 500 responses (the second with a
Retry-After hint) followed by a 404 — stops at attempt 3 with the permanent
error, having slept 1 and then the hinted 7. -/
theorem post_live_retry_policy_witness :
    ((postLive (some "k") c2events).result =
        PostResult.apiError (parsedBody 404 (some [("status", PV.num 404)]) "nf") ∧
      (postLive (some "k") c2events).attempts = 2 + 1 ∧
      isRemoteError (postLive (some "k") c2events).result = true) ∧
    (postLive (some "k") c2events).waits[1]? =
      some (waitOf (c2events 1) ((2 : Rat) ^ (1 : Nat))) := by
  constructor
  · exact (post_live_retry_policy (some "k") c2events).2.2.1 2 404 none
      (some [("status", .num 404)]) "nf" (by omega)
      (by
        intro k hk
        interval_cases k <;> rfl)
      rfl (by omega) (by omega) (by omega)
  · exact ((post_live_retry_policy (some "k") c2events).2.1 1 (by decide)).1

/-- Fixture: a server always answering 204 No Content with a parseable body. -/
def c3events : Nat → Event := fun _ => .resp 204 none (some [("ok", .b true)]) "accepted"

/-- Fixture: a server answering 200 with a parseable body. -/
def c3okEvents : Nat → Event := fun _ => .resp 200 none (some [("id", .s "cst_9")]) ""

/-- Counterexample to **C3** as stated: 204 is a 2xx status, yet live `_post`
does not return normally — it raises the permanent `RemoteError` carrying the
parsed body, because the code accepts only 200 and 201. -/
theorem post_2xx_counterexample :
    (200 ≤ 204 ∧ 204 < 300) ∧
    isSuccess (postLive (some "key123") c3events).result = false ∧
    (postLive (some "key123") c3events).result = .apiError [("ok", PV.b true)] ∧
    isRemoteError (postLive (some "key123") c3events).result = true := by
  refine ⟨by omega, rfl, rfl, rfl⟩

/-- **C3 (amended)**: For every response with status 200 or 201 (the exact
statuses the code accepts; other 2xx statuses are treated as permanent
errors), `_post` returns normally on that attempt with the parsed body merged
with the idempotency key under the `idempotency` field. -/
theorem post_200_201_success (key : Option String) (ev : Nat → Event)
    (j status : Nat) (ra : Option Rat) (jb : Option Dict) (t : String)
    (hj : j < 5) (hpre : ∀ k, k < j → retryEvt (ev k) = true)
    (hev : ev j = .resp status ra jb t) (hok : status = 200 ∨ status = 201) :
    (postLive key ev).result = .success (mergeKey (parsedBody status jb t) key) ∧
    (postLive key ev).attempts = j + 1 ∧
    (∀ (d : Dict) (k : String), ¬ k = "" →
      mergeKey d (some k) = dictSet d "idempotency" (.s k)) := by
  have hpre0 : ∀ k, k < j → retryEvt (ev (0 + k)) = true := by
    intro k hk; simpa using hpre k hk
  obtain ⟨hr, ha⟩ :=
    postGoLive_success key ev j 5 0 1 [] status ra jb t hj hpre0 (by simpa using hev) hok
  refine ⟨hr, by unfold postLive; omega, ?_⟩
  intro d k hk
  simp [mergeKey, String.isEmpty_iff, hk]

/-- Witness for the amended **C3**: a first-attempt 200 response. -/
theorem post_200_201_success_witness :
    (postLive (some "k") c3okEvents).result =
      .success (mergeKey (parsedBody 200 (some [("id", PV.s "cst_9")]) "") (some "k")) ∧
    (postLive (some "k") c3okEvents).attempts = 0 + 1 ∧
    (∀ (d : Dict) (k : String), ¬ k = "" →
      mergeKey d (some k) = dictSet d "idempotency" (.s k)) := by
  exact post_200_201_success (some "k") c3okEvents 0 200 none (some [("id", .s "cst_9")]) ""
    (by omega) (fun k hk => absurd hk (by omega)) rfl (Or.inl rfl)

/-- The items a single page response contributes. -/
def pageItems : PageResp → List PV
  | .ok d => extractItems d
  | .err => []

lemma getPagAux_acc : ∀ (rs : List PageResp) (acc : List PV),
    getPagAux rs acc = (getPagAux rs []).map (fun l => acc ++ l) := by
  intro rs
  induction rs with
  | nil => intro acc; rfl
  | cons p rest ih =>
    intro acc
    cases p with
    | err => rfl
    | ok data =>
      simp only [getPagAux, List.nil_append]
      by_cases h : hasNext data = true
      · rw [if_pos h, if_pos h, ih (acc ++ extractItems data), ih (extractItems data)]
        cases getPagAux rest [] <;> simp [Except.map]
      · rw [if_neg h, if_neg h]
        simp [Except.map]

/-- **C5**: For every finite chain of page responses — every page but the
last carrying a truthy next cursor, the last carrying none — the paginated
fetch returns the concatenation, in page order, of the first list-valued
entries under the pages' `_embedded` wrappers, consuming nothing past the
cursorless page; and an HTTP-level failure anywhere along the walk makes the
whole fetch a `RemoteError` that carries none of the already-collected
items. -/
theorem paginated_fetch_spec :
    (∀ (pages junk : List PageResp) (dl : Dict),
      (∀ p ∈ pages, ∃ d, p = PageResp.ok d ∧ hasNext d = true) →
      hasNext dl = false →
      _get_paginated (pages ++ .ok dl :: junk) =
        .ok ((pages.map pageItems).flatten ++ extractItems dl)) ∧
    (∀ (pages junk : List PageResp),
      (∀ p ∈ pages, ∃ d, p = PageResp.ok d ∧ hasNext d = true) →
      _get_paginated (pages ++ .err :: junk) = .error ()) := by
  constructor
  · intro pages junk dl hp hl
    induction pages with
    | nil =>
      simp [_get_paginated, getPagAux, hl]
    | cons p rest ih =>
      obtain ⟨d, hpd, hnext⟩ := hp p (List.mem_cons_self p rest)
      subst hpd
      have ih2 := ih (fun q hq => hp q (List.mem_cons_of_mem _ hq))
      simp only [_get_paginated, List.cons_append, getPagAux, List.nil_append, hnext, if_true]
      rw [getPagAux_acc]
      simp only [_get_paginated] at ih2
      simp only [List.append_eq]
      rw [ih2]
      simp [pageItems, Except.map]
  · intro pages junk hp
    induction pages with
    | nil => rfl
    | cons p rest ih =>
      obtain ⟨d, hpd, hnext⟩ := hp p (List.mem_cons_self p rest)
      subst hpd
      have ih2 := ih (fun q hq => hp q (List.mem_cons_of_mem _ hq))
      simp only [_get_paginated, List.cons_append, getPagAux, List.nil_append, hnext, if_true]
      rw [getPagAux_acc]
      simp only [_get_paginated] at ih2
      simp only [List.append_eq]
      rw [ih2]
      rfl

/-- Fixture: first page, with one item and a next cursor. -/
def c5page1 : Dict :=
  [("_embedded", .o [("subscriptions", .arr [.s "s1"])]),
   ("_links", .o [("next", .o [("href", .s "https://api.mollie.com/v2/customers?from=x")])])]

/-- Fixture: last page, one item, no next cursor. -/
def c5page2 : Dict := [("_embedded", .o [("subscriptions", .arr [.s "s2"])])]

/-- Witness for **C5**: a concrete two-page chain, and a one-page failing
chain. -/
theorem paginated_fetch_spec_witness :
    _get_paginated [PageResp.ok c5page1, PageResp.ok c5page2] =
      .ok (([PageResp.ok c5page1].map pageItems).flatten ++ extractItems c5page2) ∧
    _get_paginated [PageResp.err] = .error () := by
  constructor
  · exact paginated_fetch_spec.1 [.ok c5page1] [] c5page2
      (by
        intro p hp
        simp only [List.mem_singleton] at hp
        exact ⟨c5page1, hp, by subst hp; rfl⟩)
      rfl
  · exact paginated_fetch_spec.2 [] [] (by intro p hp; simp at hp)

/-- **C6**: The date parser tries `%Y-%m-%d`, then `%d-%m-%Y`, then
`%d-%m-%y`, in that fixed order, returning the first successful parse;
"2024-01-01", "01-01-2024" and "01-01-24" all parse to 2024-01-01; a string
matching no format ("13-13-2024") makes the validator skip the row instead of
propagating an error. -/
theorem date_parsing_priority :
    (∀ s d, strptimeYmd s = some d → _parse_date s = some d) ∧
    (∀ s d, strptimeYmd s = none → strptimeDmY s = some d → _parse_date s = some d) ∧
    (∀ s, strptimeYmd s = none → strptimeDmY s = none → _parse_date s = strptimeDmy2 s) ∧
    (_parse_date "2024-01-01" = some ⟨2024, 1, 1⟩ ∧
     _parse_date "01-01-2024" = some ⟨2024, 1, 1⟩ ∧
     _parse_date "01-01-24" = some ⟨2024, 1, 1⟩ ∧
     _parse_date "13-13-2024" = none) ∧
    (∀ (validateIban : String → Bool) (flag : Bool) (raw : RawRow),
      truthyS (trimRow raw).DatumOndertekening = true →
      _parse_date ((trimRow raw).DatumOndertekening.getD "") = none →
      read_customers_row validateIban flag raw = none) := by
  refine ⟨?_, ?_, ?_, ⟨by decide, by decide, by decide, by decide⟩, ?_⟩
  · intro s d h
    simp [_parse_date, h]
  · intro s d h1 h2
    simp [_parse_date, h1, h2]
  · intro s h1 h2
    simp [_parse_date, h1, h2]
  · intro vi flag raw ht hd
    by_cases h1 : (!truthyS (trimRow raw).Email || !truthyS (trimRow raw).IBAN) = true
    · simp [read_customers_row, h1]
    · by_cases h2 : (flag && !vi ((trimRow raw).IBAN.getD "")) = true
      · simp [read_customers_row, h1, h2]
      · simp [read_customers_row, h1, h2, ht, hd]

/-- Fixture: a row whose date field matches no format. -/
def c6row : RawRow :=
  ⟨some "a@example.com", some "A", some "B", some "NL91ABNA0417164300", some "M1",
   some "13-13-2024", some "12,50", some "7", none, none, none⟩

/-- Witness for **C6**: format priority at "01-01-2024" (ISO fails, Dutch
four-digit-year succeeds) and a concrete skip of a no-format row. -/
theorem date_parsing_priority_witness :
    _parse_date "01-01-2024" = some ⟨2024, 1, 1⟩ ∧
    read_customers_row validate_iban true c6row = none := by
  constructor
  · exact date_parsing_priority.2.1 "01-01-2024" ⟨2024, 1, 1⟩ (by decide) (by decide)
  · exact date_parsing_priority.2.2.2.2 validate_iban true c6row (by decide) (by decide)

/-- Fixture: a fully valid row whose amount is the negative "-1". -/
def c7row : RawRow :=
  ⟨some "a@example.com", some "A", some "B", some "NL91ABNA0417164300", some "M1",
   some "", some "-1", some "7", none, none, none⟩

/-- The record the validator yields for `c7row`. -/
def c7clean : CleanRow :=
  ⟨some "a@example.com", some "A", some "B", some "NL91ABNA0417164300", some "M1",
   none, .fin (mkRat (-1) 1), some "7", none, none, none⟩

/-- Fixture: the same row with a non-numeric amount. -/
def c7rowBad : RawRow :=
  ⟨some "a@example.com", some "A", some "B", some "NL91ABNA0417164300", some "M1",
   some "", some "abc", some "7", none, none, none⟩

/-- Counterexample to **C7** as stated: a row with amount "-1" passes every
gate of the validator (IBAN checksum included) and is yielded with the
negative amount −1 — the validator enforces no non-negativity. -/
theorem amount_nonneg_counterexample :
    read_customers_row validate_iban true c7row = some c7clean ∧
    c7clean.Bedrag = .fin (mkRat (-1) 1) ∧ (mkRat (-1) 1 : Rat) < 0 := by
  refine ⟨by decide, rfl, by rw [Rat.mkRat_eq_div]; norm_num⟩

/-- **C7 (amended)**: Every record yielded by the validator has an amount
obtained from the row's trimmed amount string by stripping all spaces,
normalizing `,` to `.` and converting to a number ("12,50" → 12.50,
"12.50" → 12.50, " 1 234,56 " → 1234.56); a row non-numeric after
normalization is skipped. The amount need not be non-negative: signed values
parse and are yielded as-is. -/
theorem amount_parsing_amended :
    (∀ (vi : String → Bool) (flag : Bool) (raw : RawRow) (r : CleanRow),
      read_customers_row vi flag raw = some r →
      ∃ s : String, (trimRow raw).Bedrag = some s ∧
        parsePyFloat (commaToDot (removeSpaces s)) = some r.Bedrag) ∧
    (∀ (vi : String → Bool) (flag : Bool) (raw : RawRow) (s : String),
      (trimRow raw).Bedrag = some s →
      parsePyFloat (commaToDot (removeSpaces s)) = none →
      read_customers_row vi flag raw = none) ∧
    (parsePyFloat (commaToDot (removeSpaces (pyStrip "12,50"))) = some (.fin (mkRat 25 2)) ∧
     parsePyFloat (commaToDot (removeSpaces (pyStrip "12.50"))) = some (.fin (mkRat 25 2)) ∧
     parsePyFloat (commaToDot (removeSpaces (pyStrip " 1 234,56 "))) =
       some (.fin (mkRat 30864 25)) ∧
     parsePyFloat (commaToDot (removeSpaces (pyStrip "abc"))) = none) := by
  refine ⟨?_, ?_, by decide, by decide, by decide, by decide⟩
  · intro vi flag raw r h
    simp only [read_customers_row] at h
    split at h
    · exact absurd h (by simp)
    · split at h
      · exact absurd h (by simp)
      · split at h
        · exact absurd h (by simp)
        · split at h
          · exact absurd h (by simp)
          · split at h
            · exact absurd h (by simp)
            · rename_i x1 s hs x2 amt hamt
              rw [Option.some.injEq] at h
              subst h
              exact ⟨s, hs, hamt⟩
  · intro vi flag raw s hB hparse
    by_cases h1 : (!truthyS (trimRow raw).Email || !truthyS (trimRow raw).IBAN) = true
    · simp [read_customers_row, h1]
    · by_cases h2 : (flag && !vi ((trimRow raw).IBAN.getD "")) = true
      · simp [read_customers_row, h1, h2]
      · rcases hds : (if truthyS (trimRow raw).DatumOndertekening then
            match _parse_date ((trimRow raw).DatumOndertekening.getD "") with
            | some d => some (some d)
            | none => none
          else some none) with _ | dOpt
        · simp [read_customers_row, h1, h2, hds]
        · simp [read_customers_row, h1, h2, hds, hB, hparse]

/-- Witness for the amended **C7**: the amount equation at the concrete
yielded row, and a concrete skip of a non-numeric amount. -/
theorem amount_parsing_amended_witness :
    (∃ s : String, (trimRow c7row).Bedrag = some s ∧
      parsePyFloat (commaToDot (removeSpaces s)) = some c7clean.Bedrag) ∧
    read_customers_row validate_iban true c7rowBad = none := by
  constructor
  · exact amount_parsing_amended.1 validate_iban true c7row c7clean (by decide)
  · exact amount_parsing_amended.2.1 validate_iban true c7rowBad "abc" (by decide) (by decide)

/-- **C10**: A row whose signature-date field is empty after trimming but
which passes every other gate is *not* skipped: it is yielded with the date
set to `None`; `import_mandate` then unconditionally raises while formatting
that absent date as ISO — before any POST — so the record, whose customer was
already created with a usable id, is marked failed at the mandate step with
the mandate never attempted. -/
theorem empty_signature_date_flow :
    (∀ (vi : String → Bool) (flag : Bool) (raw : RawRow) (r : CleanRow),
      truthyS (trimRow raw).DatumOndertekening = false →
      read_customers_row vi flag raw = some r →
      r.DatumOndertekening = none) ∧
    (∀ (post : Post) (customer_id : String) (iban mandate_reference given_name
        family_name : Option String),
      (import_mandate post customer_id iban mandate_reference none given_name
          family_name).1 =
        .error "AttributeError: NoneType object has no attribute isoformat" ∧
      (import_mandate post customer_id iban mandate_reference none given_name
          family_name).2 = []) ∧
    (∀ (post : Post) (today : Date) (row : CleanRow) (d : Dict),
      row.DatumOndertekening = none →
      (create_customer post row.Email row.VoorNaam row.Naam
          (some (strOrEmpty row.LidNr))).1 = .ok d →
      pvTruthyOpt (extract_customer_id d) = true →
      (process_customer post today row).1.errors ≠ [] ∧
      (process_customer post today row).1.customer = some d ∧
      (process_customer post today row).1.mandate = none ∧
      (process_customer post today row).2 = ["/customers"]) := by
  refine ⟨?_, fun post cid iban ref g f => ⟨rfl, rfl⟩, ?_⟩
  · intro vi flag raw r hf h
    simp only [read_customers_row, hf, Bool.false_eq_true, if_false] at h
    split at h
    · exact absurd h (by simp)
    · split at h
      · exact absurd h (by simp)
      · split at h
        · exact absurd h (by simp)
        · split at h
          · exact absurd h (by simp)
          · rw [Option.some.injEq] at h
            subst h
            rfl
  · intro post today row d hdate hcust hid
    have hpair : create_customer post row.Email row.VoorNaam row.Naam
        (some (strOrEmpty row.LidNr)) = (.ok d, ["/customers"]) := by
      have h2 : (create_customer post row.Email row.VoorNaam row.Naam
          (some (strOrEmpty row.LidNr))).2 = ["/customers"] := rfl
      exact Prod.ext hcust h2
    simp only [process_customer, hpair]
    simp [hid, hdate, import_mandate]

/-- Fixture: a valid row whose date field is blank. -/
def c10row : RawRow :=
  ⟨some "a@example.com", some "A", some "B", some "NL91ABNA0417164300", some "M1",
   some "  ", some "12,50", some "7", none, none, none⟩

/-- The record the validator yields for `c10row`. -/
def c10clean : CleanRow :=
  ⟨some "a@example.com", some "A", some "B", some "NL91ABNA0417164300", some "M1",
   none, .fin (mkRat 25 2), some "7", none, none, none⟩

/-- Fixture: a POST capability answering every call with a usable id. -/
def c10post : Post := fun _ _ _ => .ok [("id", .s "cst_w")]

/-- Witness for **C10**: the blank-date row is yielded with date `None`, and
processing it fails at the mandate step after the customer was created. -/
theorem empty_signature_date_flow_witness :
    c10clean.DatumOndertekening = none ∧
    ((process_customer c10post ⟨2026, 1, 1⟩ c10clean).1.errors ≠ [] ∧
     (process_customer c10post ⟨2026, 1, 1⟩ c10clean).1.customer =
       some [("id", .s "cst_w")] ∧
     (process_customer c10post ⟨2026, 1, 1⟩ c10clean).1.mandate = none ∧
     (process_customer c10post ⟨2026, 1, 1⟩ c10clean).2 = ["/customers"]) := by
  constructor
  · exact empty_signature_date_flow.1 validate_iban true c10row c10clean (by decide) (by decide)
  · exact empty_signature_date_flow.2.2 c10post ⟨2026, 1, 1⟩ c10clean [("id", .s "cst_w")]
      rfl rfl rfl

/-- **C4**: Per-record orchestration. If the customer-creation step fails,
the mandate and subscription steps are never attempted (only the customer
POST is in the trace) and the record carries exactly that error. If customer
creation succeeds without a usable identifier, the record ends with no error
(not marked failed) and again neither mandate nor subscription is attempted.
And the main loop is a pure per-record map: every record contributes exactly
one output row computed from that record alone, so one record's failure
cannot affect the processing of any other. -/
theorem orchestrator_step_isolation :
    (∀ (post : Post) (today : Date) (row : CleanRow) (e : String),
      (create_customer post row.Email row.VoorNaam row.Naam
          (some (strOrEmpty row.LidNr))).1 = .error e →
      (process_customer post today row).1 = ⟨none, none, none, [e], none⟩ ∧
      (process_customer post today row).2 = ["/customers"]) ∧
    (∀ (post : Post) (today : Date) (row : CleanRow) (d : Dict),
      (create_customer post row.Email row.VoorNaam row.Naam
          (some (strOrEmpty row.LidNr))).1 = .ok d →
      pvTruthyOpt (extract_customer_id d) = false →
      (process_customer post today row).1 = ⟨some d, none, none, [], none⟩ ∧
      (process_customer post today row).2 = ["/customers"]) ∧
    (∀ (post : Post) (today : Date) (rows : List CleanRow),
      (main_loop post today rows).1 = rows.map (outRowOf post today) ∧
      (main_loop post today rows).1.length = rows.length) := by
  refine ⟨?_, ?_, ?_⟩
  · intro post today row e hcust
    have hpair : create_customer post row.Email row.VoorNaam row.Naam
        (some (strOrEmpty row.LidNr)) = (.error e, ["/customers"]) := by
      have h2 : (create_customer post row.Email row.VoorNaam row.Naam
          (some (strOrEmpty row.LidNr))).2 = ["/customers"] := rfl
      exact Prod.ext hcust h2
    simp [process_customer, hpair]
  · intro post today row d hcust hid
    have hpair : create_customer post row.Email row.VoorNaam row.Naam
        (some (strOrEmpty row.LidNr)) = (.ok d, ["/customers"]) := by
      have h2 : (create_customer post row.Email row.VoorNaam row.Naam
          (some (strOrEmpty row.LidNr))).2 = ["/customers"] := rfl
      exact Prod.ext hcust h2
    simp [process_customer, hpair, hid]
  · intro post today rows
    induction rows with
    | nil => exact ⟨rfl, rfl⟩
    | cons row rest ih =>
      simp only [main_loop, List.map_cons]
      refine ⟨?_, ?_⟩
      · rw [← ih.1]
      · simp [ih.1]

/-- Fixture: a POST capability that always raises. -/
def c4post : Post := fun _ _ _ => .error "ConnectionError: boom"

/-- Fixture: a POST capability that succeeds without any id. -/
def c4postNoId : Post := fun _ _ _ => .ok [("resource", .s "")]

/-- Fixture: a validated record. -/
def c4row : CleanRow :=
  ⟨some "b@example.com", some "C", some "D", some "NL91ABNA0417164300", some "M2",
   some ⟨2024, 1, 1⟩, .fin (mkRat 25 2), some "8", none, none, none⟩

/-- Witness for **C4**: a failing customer step yields exactly that error
with nothing else attempted; a success without usable id yields no error;
the loop maps two records to two rows. -/
theorem orchestrator_step_isolation_witness :
    ((process_customer c4post ⟨2026, 1, 1⟩ c4row).1 =
        ⟨none, none, none, ["ConnectionError: boom"], none⟩ ∧
     (process_customer c4post ⟨2026, 1, 1⟩ c4row).2 = ["/customers"]) ∧
    ((process_customer c4postNoId ⟨2026, 1, 1⟩ c4row).1 =
        ⟨some [("resource", .s "")], none, none, [], none⟩ ∧
     (process_customer c4postNoId ⟨2026, 1, 1⟩ c4row).2 = ["/customers"]) ∧
    (main_loop c4post ⟨2026, 1, 1⟩ [c4row, c4row]).1 =
      [c4row, c4row].map (outRowOf c4post ⟨2026, 1, 1⟩) := by
  refine ⟨?_, ?_, ?_⟩
  · exact orchestrator_step_isolation.1 c4post ⟨2026, 1, 1⟩ c4row "ConnectionError: boom" rfl
  · exact orchestrator_step_isolation.2.1 c4postNoId ⟨2026, 1, 1⟩ c4row
      [("resource", .s "")] rfl rfl
  · exact (orchestrator_step_isolation.2.2 c4post ⟨2026, 1, 1⟩ [c4row, c4row]).1

/-! Helper lemmas for the start-date computation (C8). -/

/-- The claim's notion of an occurrence of `orig`'s month/day at a date `d`:
same month and day, or — for a Feb 29 original in a non-leap target year —
Mar 1. Stated from the specification, to be compared with the code. -/
def SameDayOcc (orig d : Date) : Prop :=
  (d.month = orig.month ∧ d.day = orig.day) ∨
  (orig.month = 2 ∧ orig.day = 29 ∧ isLeap d.year = false ∧ d.month = 3 ∧ d.day = 1)

/-- The unique occurrence of `orig`'s month/day in year `y` (proof-side
companion of `sameDayCandidate`). -/
def occ (orig : Date) (y : Nat) : Date :=
  match mkDate y orig.month orig.day with
  | some c => c
  | none => ⟨y, 3, 1⟩

lemma mkDate_of_valid {y m d : Nat} (h : ValidDate ⟨y, m, d⟩) :
    mkDate y m d = some ⟨y, m, d⟩ := by
  unfold mkDate
  rw [if_pos h]

lemma mkDate_none_feb29 {orig : Date} {y : Nat} (hm : orig.month = 2)
    (hd : orig.day = 29) (hl : isLeap y = false) :
    mkDate y orig.month orig.day = none := by
  unfold mkDate
  rw [if_neg]
  rintro ⟨-, -, -, -, -, h6⟩
  simp [hm, hd, daysInMonth, hl] at h6

lemma valid_same_md {orig : Date} {y : Nat} (ho : ValidDate orig)
    (hy1 : 1 ≤ y) (hy2 : y ≤ 9999) :
    ValidDate ⟨y, orig.month, orig.day⟩ ∨
    (orig.month = 2 ∧ orig.day = 29 ∧ isLeap y = false) := by
  obtain ⟨h1, h2, h3, h4, h5, h6⟩ := ho
  by_cases hm : orig.month = 2
  · cases hleap : isLeap y with
    | false =>
      by_cases hd : orig.day = 29
      · exact Or.inr ⟨hm, hd, rfl⟩
      · refine Or.inl ⟨hy1, hy2, h3, h4, h5, ?_⟩
        simp only [hm, daysInMonth] at h6 ⊢
        simp only [if_pos rfl, hleap, if_false] at h6 ⊢
        rcases hol : isLeap orig.year <;> rw [hol] at h6 <;> simp at h6 ⊢ <;> omega
    | true =>
      refine Or.inl ⟨hy1, hy2, h3, h4, h5, ?_⟩
      simp only [hm, daysInMonth] at h6 ⊢
      simp only [if_pos rfl, hleap, if_true] at h6 ⊢
      rcases hol : isLeap orig.year <;> rw [hol] at h6 <;> simp at h6 ⊢ <;> omega
  · refine Or.inl ⟨hy1, hy2, h3, h4, h5, ?_⟩
    have heq : daysInMonth y orig.month = daysInMonth orig.year orig.month := by
      simp [daysInMonth, hm]
    simpa [heq] using h6

lemma valid_mar1 {y : Nat} (hy1 : 1 ≤ y) (hy2 : y ≤ 9999) :
    ValidDate ⟨y, 3, 1⟩ := by
  refine ⟨hy1, hy2, ?_, ?_, ?_, ?_⟩ <;> simp [daysInMonth]

lemma occ_spec {orig : Date} {y : Nat} (ho : ValidDate orig)
    (hy1 : 1 ≤ y) (hy2 : y ≤ 9999) :
    ValidDate (occ orig y) ∧ (occ orig y).year = y ∧ SameDayOcc orig (occ orig y) := by
  rcases valid_same_md ho hy1 hy2 with hv | ⟨hm, hd, hl⟩
  · unfold occ
    rw [mkDate_of_valid hv]
    exact ⟨hv, rfl, Or.inl ⟨rfl, rfl⟩⟩
  · unfold occ
    rw [mkDate_none_feb29 hm hd hl]
    exact ⟨valid_mar1 hy1 hy2, rfl, Or.inr ⟨hm, hd, hl, rfl, rfl⟩⟩

lemma occ_unique {orig : Date} (d : Date) (hd : ValidDate d)
    (hs : SameDayOcc orig d) : d = occ orig d.year := by
  rcases hs with ⟨hm, hdd⟩ | ⟨hm2, hd29, hl, hm3, hd1⟩
  · have hde : (⟨d.year, orig.month, orig.day⟩ : Date) = d := by
      cases d
      simp only at hm hdd
      simp [hm, hdd]
    have hv : ValidDate ⟨d.year, orig.month, orig.day⟩ := by rw [hde]; exact hd
    unfold occ
    rw [mkDate_of_valid hv, hde]
  · have hnone : mkDate d.year orig.month orig.day = none :=
      mkDate_none_feb29 hm2 hd29 hl
    unfold occ
    rw [hnone]
    cases d
    simp only at hm3 hd1
    simp [hm3, hd1]

lemma cand_eq_occ {orig : Date} {y : Nat} (ho : ValidDate orig)
    (hy1 : 1 ≤ y) (hy2 : y ≤ 9999) :
    sameDayCandidate orig y = some (occ orig y) := by
  rcases valid_same_md ho hy1 hy2 with hv | ⟨hm, hd, hl⟩
  · unfold sameDayCandidate occ
    rw [mkDate_of_valid hv]
  · unfold sameDayCandidate occ
    rw [mkDate_none_feb29 hm hd hl]
    simp [hm, hd, mkDate_of_valid (valid_mar1 hy1 hy2)]

lemma cand_none_overflow {orig : Date} {y : Nat} (hy : 9999 < y) :
    sameDayCandidate orig y = none := by
  have h1 : mkDate y orig.month orig.day = none := by
    unfold mkDate
    rw [if_neg]
    intro hv
    have h2 : y ≤ 9999 := hv.2.1
    omega
  have h2 : mkDate y 3 1 = none := by
    unfold mkDate
    rw [if_neg]
    intro hv
    have h2 : y ≤ 9999 := hv.2.1
    omega
  unfold sameDayCandidate
  rw [h1, h2]
  simp

lemma dle_of_dlt {a b : Date} (h : dateLt a b = true) : dateLe a b = true := by
  simp [dateLe, h]

lemma dle_refl (a : Date) : dateLe a a = true := by
  simp [dateLe]

lemma dlt_year {a b : Date} (h : a.year < b.year) : dateLt a b = true := by
  simp [dateLt]
  omega

lemma dle_of_not_lt {a b : Date} (h : ¬ dateLt a b = true) : dateLe b a = true := by
  cases a
  cases b
  simp [dateLt, dateLe, beq_iff_eq, Date.mk.injEq] at h ⊢
  omega

lemma dle_dlt_absurd {a b : Date} (h1 : dateLe a b = true) (h2 : dateLt b a = true) :
    False := by
  cases a
  cases b
  simp [dateLt, dateLe, beq_iff_eq, Date.mk.injEq] at h1 h2
  omega

lemma occ_min {orig fd : Date} (ho : ValidDate orig) (hf : ValidDate fd) (Y : Nat)
    (hY2 : Y ≤ 9999) (hYr : fd.year ≤ Y)
    (hprev : ∀ z, fd.year ≤ z → z < Y → dateLt (occ orig z) fd = true) :
    ∀ d, ValidDate d → SameDayOcc orig d → dateLe fd d = true →
      dateLe (occ orig Y) d = true := by
  intro d hd hsd hfd
  have hdu := occ_unique d hd hsd
  rcases Nat.lt_trichotomy d.year Y with h | h | h
  · by_cases h2 : d.year < fd.year
    · exact False.elim (dle_dlt_absurd hfd (dlt_year h2))
    · have hlt := hprev d.year (by omega) h
      rw [← hdu] at hlt
      exact False.elim (dle_dlt_absurd hfd hlt)
  · rw [hdu, h]
    exact dle_refl _
  · refine dle_of_dlt (dlt_year ?_)
    have hoy : (occ orig Y).year = Y := (occ_spec ho (le_trans hf.1 hYr) hY2).2.1
    rw [hoy]
    exact h

/-- **C8**: For valid dates, `next_same_day_in_year orig fd` returns, when it
returns at all, the earliest valid date on or after `fd` whose month and day
equal `orig`'s (Feb 29 standing for Mar 1 in a non-leap target year); it does
return whenever such a date exists; and the three concrete examples of the
specification hold. -/
theorem next_same_day_spec :
    (∀ (orig fd : Date), ValidDate orig → ValidDate fd →
      (∀ r, next_same_day_in_year orig fd = some r →
        ValidDate r ∧ dateLe fd r = true ∧ SameDayOcc orig r ∧
        ∀ d, ValidDate d → SameDayOcc orig d → dateLe fd d = true →
          dateLe r d = true) ∧
      ((∃ d, ValidDate d ∧ SameDayOcc orig d ∧ dateLe fd d = true) →
        (next_same_day_in_year orig fd).isSome = true)) ∧
    (next_same_day_in_year ⟨2020, 6, 15⟩ ⟨2026, 1, 10⟩ = some ⟨2026, 6, 15⟩ ∧
     next_same_day_in_year ⟨2021, 1, 6⟩ ⟨2026, 1, 19⟩ = some ⟨2027, 1, 6⟩ ∧
     next_same_day_in_year ⟨2020, 2, 29⟩ ⟨2021, 1, 1⟩ = some ⟨2021, 3, 1⟩) := by
  refine ⟨?_, by decide, by decide, by decide⟩
  intro orig fd ho hf
  have hf1 : 1 ≤ fd.year := hf.1
  have hf2 : fd.year ≤ 9999 := hf.2.1
  have hcand := cand_eq_occ ho hf1 hf2
  constructor
  · intro r hr
    unfold next_same_day_in_year at hr
    simp only [hcand] at hr
    by_cases hlt : dateLt (occ orig fd.year) fd = true
    · rw [if_pos hlt] at hr
      by_cases hof : fd.year + 1 ≤ 9999
      · rw [cand_eq_occ ho (by omega) hof] at hr
        have hre : occ orig (fd.year + 1) = r := Option.some.inj hr
        subst hre
        obtain ⟨hv, hyr, hs⟩ := occ_spec ho (by omega) hof
        refine ⟨hv, dle_of_dlt (dlt_year (by rw [hyr]; omega)), hs, ?_⟩
        apply occ_min ho hf (fd.year + 1) hof (by omega)
        intro z hz1 hz2
        have hz : z = fd.year := by omega
        rw [hz]
        exact hlt
      · rw [cand_none_overflow (by omega)] at hr
        exact absurd hr (by simp)
    · rw [if_neg hlt] at hr
      have hre : occ orig fd.year = r := Option.some.inj hr
      subst hre
      obtain ⟨hv, hyr, hs⟩ := occ_spec ho hf1 hf2
      refine ⟨hv, dle_of_not_lt hlt, hs, ?_⟩
      apply occ_min ho hf fd.year hf2 (le_refl _)
      intro z hz1 hz2
      exact absurd hz2 (by omega)
  · rintro ⟨d, hd, hsd, hled⟩
    unfold next_same_day_in_year
    simp only [hcand]
    by_cases hlt : dateLt (occ orig fd.year) fd = true
    · rw [if_pos hlt]
      by_cases hof : fd.year + 1 ≤ 9999
      · rw [cand_eq_occ ho (by omega) hof]
        simp
      · exfalso
        have hdu := occ_unique d hd hsd
        have hdy : d.year ≤ 9999 := hd.2.1
        rcases Nat.lt_or_ge d.year fd.year with h | h
        · exact dle_dlt_absurd hled (dlt_year h)
        · have hdy2 : d.year = fd.year := by omega
          rw [hdu, hdy2] at hled
          exact dle_dlt_absurd hled hlt
    · rw [if_neg hlt]
      simp

/-- Witness for **C8**: at `orig = 2020-06-15`, `fd = 2026-01-10`, the result
2026-06-15 is on or after `fd`, matches the original month/day, and is least
among matching dates. -/
theorem next_same_day_spec_witness :
    ValidDate ⟨2026, 6, 15⟩ ∧ dateLe ⟨2026, 1, 10⟩ ⟨2026, 6, 15⟩ = true ∧
    SameDayOcc ⟨2020, 6, 15⟩ ⟨2026, 6, 15⟩ ∧
    ∀ d, ValidDate d → SameDayOcc ⟨2020, 6, 15⟩ d →
      dateLe ⟨2026, 1, 10⟩ d = true → dateLe ⟨2026, 6, 15⟩ d = true := by
  exact ((next_same_day_spec.1 ⟨2020, 6, 15⟩ ⟨2026, 1, 10⟩ (by decide) (by decide)).1
    ⟨2026, 6, 15⟩ (by decide))
